import Mathlib

/-!
Shallow embedding of `process_audio.py` from the repository
`imvickykumar999/Bypass-YouTube-Content-ID`.

The script is a five-stage ffmpeg pipeline (tempo, pitch, noise-mix, EQ,
loop).  We model the file system as an association list from paths to
provenance-carrying contents, the external ffmpeg engine as a success
oracle `eng : Nat → Bool` consulted once per invocation (the n-th
invocation of `run_ffmpeg` succeeds iff `eng n`), and each Python
function as a Lean function threading an explicit state.  `os.rename` on
a missing source raises `FileNotFoundError` in Python, so functions that
may rename return `Option` (`none` models the uncaught exception).
-/

/-- Provenance-carrying model of the bytes of an audio file on disk.  Every
ffmpeg invocation that writes a file wraps the contents of its inputs in a
constructor recording the filter applied, so a re-encode is visible in the
value, while `os.rename` moves a value unchanged.  `missing p` stands for
the contents ffmpeg would read from a nonexistent path `p`. -/
inductive Content where
  | orig (tag : String)
  | missing (p : String)
  | tempo (src : Content) (factor : ℚ)
  | pitch (src : Content) (factor : ℚ)
  | amix (main noise : Content) (vol : ℚ)
  | copyOf (src : Content)
  | eqFilter (src : Content)
  | loopCopy (src : Content) (n : ℤ)
deriving DecidableEq

/-- A file system: association list from paths to contents (first entry for a
path wins, as in `getFile`). -/
abbrev FS := List (String × Content)

/-- Look up the contents at path `p` (models `os.path.exists` via `isSome`
and what ffmpeg reads from `p`). -/
def getFile : FS → String → Option Content
  | [], _ => none
  | (q, c) :: rest, p => if p = q then some c else getFile rest p

/-- Create or overwrite the file at `p` with contents `c`. -/
def setFile (fs : FS) (p : String) (c : Content) : FS :=
  (p, c) :: fs

/-- Delete the file at `p` (models `os.remove`). -/
def removeFile (fs : FS) (p : String) : FS :=
  fs.filter (fun e => e.1 ≠ p)

/-- Contents ffmpeg reads from path `p` (a nonexistent input is `missing`). -/
def readFile (fs : FS) (p : String) : Content :=
  (getFile fs p).getD (Content.missing p)

/-- Model of `os.rename src dst`: `none` when `src` does not exist
(Python raises `FileNotFoundError`). -/
def renameFile (fs : FS) (src dst : String) : Option FS :=
  match getFile fs src with
  | none => none
  | some c => some (setFile (removeFile fs src) dst c)

/-- State threaded through a run: the file system, how many engine
invocations happened so far (`calls` indexes the oracle), which warnings
were printed, which stage functions were entered (`stages`), which files
`cleanup_intermediate_files` actually removed, and the output path of
every attempted engine invocation (`ops`). -/
structure St where
  fs : FS
  calls : Nat
  warnings : List String
  stages : List String
  removed : List String
  ops : List String
deriving DecidableEq

/-- Model of `run_ffmpeg` (lines 30-47): consult the engine oracle; on
success the output file is written, on failure nothing is written.  The
invocation is recorded in `ops` either way. -/
def run_ffmpeg (eng : Nat → Bool) (out : String) (c : Content) (st : St) : Bool × St :=
  let st1 : St := { st with ops := st.ops ++ [out], calls := st.calls + 1 }
  if eng st.calls then (true, { st1 with fs := setFile st1.fs out c })
  else (false, st1)

/-- Intermediate path for stage tag `tag`: `str(work_dir / f'{base}_{tag}.wav')`
(lines 177, 183, 189, 200). -/
def mkPath (work_dir base tag : String) : String :=
  work_dir ++ "/" ++ base ++ "_" ++ tag ++ ".wav"

/-- Python `str.replace pat rep` on char lists: replace every non-overlapping
occurrence, scanning left to right (the replacement itself is not rescanned).
Recursion is on explicit fuel so that the function is structural (and thus
evaluates inside the kernel); `pyReplace` supplies enough fuel, and the
`pat ≠ []` guard matches Python only for the nonempty patterns the script
uses (always `".wav"`). -/
def replaceAux (pat rep : List Char) : Nat → List Char → List Char
  | _, [] => []
  | 0, l => l
  | fuel + 1, c :: rest =>
    if List.isPrefixOf pat (c :: rest) ∧ pat ≠ [] then
      rep ++ replaceAux pat rep fuel (List.drop (pat.length - 1) rest)
    else
      c :: replaceAux pat rep fuel rest

/-- Python `s.replace(pat, rep)`. -/
def pyReplace (s pat rep : String) : String :=
  List.asString (replaceAux pat.data rep.data s.data.length s.data)

/-- The rain-mixed intermediate path: `output_file.replace('.wav', '_rain.wav')`
(line 85). -/
def rainMixPath (output : String) : String :=
  pyReplace output ".wav" "_rain.wav"

/-- `step1_change_tempo` (lines 50-59): warn when the factor is strictly
outside `[0.97, 1.03]`, then run the `atempo` filter. -/
def step1_change_tempo (eng : Nat → Bool) (input_file output_file : String)
    (tempo_factor : ℚ) (st : St) : Bool × St :=
  let st0 : St := { st with stages := st.stages ++ ["tempo"] }
  let st1 : St :=
    if tempo_factor < Rat.mk' 97 100 ∨ tempo_factor > Rat.mk' 103 100 then
      { st0 with warnings := st0.warnings ++ ["tempo"] }
    else st0
  run_ffmpeg eng output_file (Content.tempo (readFile st1.fs input_file) tempo_factor) st1

/-- `step2_change_pitch` (lines 62-73): warn when the factor is strictly
outside `[0.99, 1.01]`, then `asetrate=44100*factor,aresample=44100` (the
content records the factor; the new sample rate is `44100 * factor` and
44100 is fixed, so no information is lost). -/
def step2_change_pitch (eng : Nat → Bool) (input_file output_file : String)
    (pitch_factor : ℚ) (st : St) : Bool × St :=
  let st0 : St := { st with stages := st.stages ++ ["pitch"] }
  let st1 : St :=
    if pitch_factor < Rat.mk' 99 100 ∨ pitch_factor > Rat.mk' 101 100 then
      { st0 with warnings := st0.warnings ++ ["pitch"] }
    else st0
  run_ffmpeg eng output_file (Content.pitch (readFile st1.fs input_file) pitch_factor) st1

/-- Lines 83-91 of `step3_add_noise`: the rain phase.  Returns
`(keepGoing, current_file, state)`; `keepGoing = false` means the rain mix
failed and the whole stage returns failure. -/
def step3_rain_phase (eng : Nat → Bool) (input_file output_file : String)
    (rain_file : Option String) (rain_volume : ℚ) (st0 : St) : Bool × String × St :=
  match rain_file with
  | some rf =>
    if (getFile st0.fs rf).isSome then
      match run_ffmpeg eng (rainMixPath output_file)
          (Content.amix (readFile st0.fs input_file) (readFile st0.fs rf) rain_volume) st0 with
      | (true, st1) => (true, rainMixPath output_file, st1)
      | (false, st1) => (false, input_file, st1)
    else (true, input_file, { st0 with warnings := st0.warnings ++ ["rain"] })
  | none => (true, input_file, st0)

/-- Lines 93-112 of `step3_add_noise`: the vinyl phase and the terminal
rename/copy logic, starting from the rain phase's `current_file`. -/
def step3_vinyl_phase (eng : Nat → Bool) (input_file output_file : String)
    (vinyl_file : Option String) (vinyl_volume : ℚ) (current_file : String)
    (st1 : St) : Option (Bool × St) :=
  match vinyl_file with
  | some vf =>
    if (getFile st1.fs vf).isSome then
      match run_ffmpeg eng output_file
          (Content.amix (readFile st1.fs current_file) (readFile st1.fs vf) vinyl_volume) st1 with
      | (ok, st2) => some (ok, st2)
    else
      if current_file ≠ input_file then
        match renameFile st1.fs current_file output_file with
        | none => none
        | some fs2 => some (true, { st1 with warnings := st1.warnings ++ ["vinyl"], fs := fs2 })
      else some (true, { st1 with warnings := st1.warnings ++ ["vinyl"] })
  | none =>
    if current_file ≠ input_file then
      match renameFile st1.fs current_file output_file with
      | none => none
      | some fs2 => some (true, { st1 with fs := fs2 })
    else
      match run_ffmpeg eng output_file (Content.copyOf (readFile st1.fs input_file)) st1 with
      | (ok, st2) => some (ok, st2)

/-- `step3_add_noise` (lines 76-112).  Rain phase: if a rain path is given and
exists, mix it into a `_rain.wav` intermediate (failure aborts); if given but
missing, warn and keep working on the input.  Vinyl phase: if given and
existing, mix into the target; if given but missing, warn and promote the
rain intermediate by rename when one was made (note: when no rain
intermediate exists, nothing is written to the target); if not given at all,
promote the rain intermediate, or re-encode the input into the target when
there was none. -/
def step3_add_noise (eng : Nat → Bool) (input_file output_file : String)
    (rain_file vinyl_file : Option String) (rain_volume vinyl_volume : ℚ)
    (st : St) : Option (Bool × St) :=
  match step3_rain_phase eng input_file output_file rain_file rain_volume
      { st with stages := st.stages ++ ["noise"] } with
  | (false, _, st1) => some (false, st1)
  | (true, current_file, st1) =>
    step3_vinyl_phase eng input_file output_file vinyl_file vinyl_volume current_file st1

/-- `step4_apply_eq` (lines 115-121). -/
def step4_apply_eq (eng : Nat → Bool) (input_file output_file : String) (st : St) : Bool × St :=
  let st0 : St := { st with stages := st.stages ++ ["eq"] }
  run_ffmpeg eng output_file (Content.eqFilter (readFile st0.fs input_file)) st0

/-- `step5_create_loop` (lines 124-133); `use_crossfade` is accepted and
ignored, exactly as in the source. -/
def step5_create_loop (eng : Nat → Bool) (input_file output_file : String)
    (loop_count : ℤ) (use_crossfade : Bool) (st : St) : Bool × St :=
  let st0 : St := { st with stages := st.stages ++ ["loop"] }
  run_ffmpeg eng output_file (Content.loopCopy (readFile st0.fs input_file) loop_count) st0

/-- `cleanup_intermediate_files` (lines 136-148): unless retention is
requested, remove every listed file that exists, recording it in
`removed`. -/
def cleanup_intermediate_files (keep_intermediate : Bool)
    (intermediate_files : List String) (st : St) : St :=
  if keep_intermediate then st
  else
    intermediate_files.foldl
      (fun s p =>
        if (getFile s.fs p).isSome then
          { s with fs := removeFile s.fs p, removed := s.removed ++ [p] }
        else s)
      st

/-- Python truthiness of the `loop_count` argument (`if loop_count:` at
line 206): `None` and `0` are falsy. -/
def loopTruthy : Option ℤ → Bool
  | none => false
  | some n => decide (n ≠ 0)

/-- Lines 176-193 of `process_single_file`: the tempo, pitch and noise
stages, each aborting the run on failure. -/
def pipelineStages123 (eng : Nat → Bool) (input_file : String) (tempo pitch : ℚ)
    (rain_file vinyl_file : Option String) (rain_volume vinyl_volume : ℚ)
    (base_name work_dir : String) (st : St) : Option (Bool × St) :=
  let tempo_file := mkPath work_dir base_name "tempo"
  match step1_change_tempo eng input_file tempo_file tempo st with
  | (false, st1) => some (false, st1)
  | (true, st1) =>
    let pitch_file := mkPath work_dir base_name "pitch"
    match step2_change_pitch eng tempo_file pitch_file pitch st1 with
    | (false, st2) => some (false, st2)
    | (true, st2) =>
      let textured_file := mkPath work_dir base_name "textured"
      step3_add_noise eng pitch_file textured_file rain_file vinyl_file
        rain_volume vinyl_volume st2

/-- Lines 195-203 of `process_single_file`: the optional EQ stage.  Returns
`(success, final_file, intermediate_files, state)`; when EQ is skipped the
noise output is the final file and is not re-encoded. -/
def pipelineEqStage (eng : Nat → Bool) (skip_eq : Bool)
    (base_name work_dir : String) (st3 : St) : Bool × String × List String × St :=
  let tempo_file := mkPath work_dir base_name "tempo"
  let pitch_file := mkPath work_dir base_name "pitch"
  let textured_file := mkPath work_dir base_name "textured"
  let intermediate_files := [tempo_file, pitch_file, textured_file]
  if skip_eq then (true, textured_file, intermediate_files, st3)
  else
    let final_file := mkPath work_dir base_name "final"
    match step4_apply_eq eng textured_file final_file st3 with
    | (false, st4) => (false, final_file, intermediate_files, st4)
    | (true, st4) => (true, final_file, intermediate_files ++ [final_file], st4)

/-- Lines 205-226 of `process_single_file`: the optional loop stage, the
rename of the final intermediate onto the output path when no loop is
requested (removing it from the cleanup list), and the unconditional-on-
success cleanup. -/
def pipelineFinish (eng : Nat → Bool) (output_file : String) (loop_count : Option ℤ)
    (use_crossfade keep_intermediate : Bool) (final_file : String)
    (intermediate_files : List String) (st : St) : Option ((Bool × Option String) × St) :=
  if loopTruthy loop_count then
    match step5_create_loop eng final_file output_file (loop_count.getD 0) use_crossfade st with
    | (false, st5) => some ((false, none), st5)
    | (true, st5) =>
      some ((true, some output_file), cleanup_intermediate_files keep_intermediate intermediate_files st5)
  else
    match (if final_file ≠ output_file then
        (renameFile st.fs final_file output_file).map (fun fs => { st with fs := fs })
      else some st) with
    | none => none
    | some st5 =>
      let files := intermediate_files.erase final_file
      some ((true, some output_file), cleanup_intermediate_files keep_intermediate files st5)

/-- `process_single_file` (lines 151-226), with `base_name` and `work_dir`
taken explicitly (in the source both default to values derived from the
input path; every caller of interest passes them).  Returns
`some ((success, final output path), state)`, or `none` when an
uncaught `FileNotFoundError` escapes from `os.rename`. -/
def process_single_file (eng : Nat → Bool) (input_file output_file : String)
    (tempo pitch : ℚ) (rain_file vinyl_file : Option String)
    (rain_volume vinyl_volume : ℚ) (loop_count : Option ℤ)
    (use_crossfade skip_eq keep_intermediate : Bool)
    (base_name work_dir : String) (st : St) : Option ((Bool × Option String) × St) :=
  match pipelineStages123 eng input_file tempo pitch rain_file vinyl_file
      rain_volume vinyl_volume base_name work_dir st with
  | none => none
  | some (false, st3) => some ((false, none), st3)
  | some (true, st3) =>
    match pipelineEqStage eng skip_eq base_name work_dir st3 with
    | (false, _, _, st4) => some ((false, none), st4)
    | (true, final_file, intermediate_files, st4) =>
      pipelineFinish eng output_file loop_count use_crossfade keep_intermediate
        final_file intermediate_files st4

/-- Final path component of `p` (model of `pathlib.PurePath.name`). -/
def pathName (p : String) : String :=
  List.asString (p.data.reverse.takeWhile (fun c => c ≠ '/')).reverse

/-- Model of `pathlib.PurePath.stem`: the name with its last extension
removed; a dot that starts the name is not an extension separator. -/
def pathStem (p : String) : String :=
  let n := (pathName p).data
  match n.reverse.dropWhile (fun c => c ≠ '.') with
  | [] => List.asString n
  | _ :: pre => if pre = [] then List.asString n else List.asString pre.reverse

/-- Batch loop body of `main` (lines 310-332): process the files one after
the other, recording for each its per-file success flag (printed in the
source's log) and counting the successes.  A crash (`none`) inside one
run aborts the whole batch, as an uncaught exception would. -/
def batch_loop (eng : Nat → Bool) (tempo pitch : ℚ)
    (rain_file vinyl_file : Option String) (rain_volume vinyl_volume : ℚ)
    (loop_count : Option ℤ) (use_crossfade skip_eq keep_intermediate : Bool)
    (music_dir : String) : List String → St → Option (List (String × Bool) × Nat × St)
  | [], st => some ([], 0, st)
  | f :: rest, st =>
    let base_name := pathStem f
    let output_file := music_dir ++ "/" ++ base_name ++ "_processed.wav"
    match process_single_file eng f output_file tempo pitch rain_file vinyl_file
        rain_volume vinyl_volume loop_count use_crossfade skip_eq keep_intermediate
        base_name music_dir st with
    | none => none
    | some ((ok, _), st1) =>
      match batch_loop eng tempo pitch rain_file vinyl_file rain_volume vinyl_volume
          loop_count use_crossfade skip_eq keep_intermediate music_dir rest st1 with
      | none => none
      | some (outcomes, cnt, st2) =>
        some ((f, ok) :: outcomes, (if ok then cnt + 1 else cnt), st2)

/-- Lexicographic comparison of char lists by code point — how Python's
`sorted` orders the batch's path strings (POSIX `PurePath` ordering is string
ordering). -/
def strLeb : List Char → List Char → Bool
  | [], _ => true
  | _ :: _, [] => false
  | a :: as, b :: bs => if a = b then strLeb as bs else decide (a < b)

/-- Python string `<=` on paths. -/
def pyStrLe (a b : String) : Bool :=
  strLeb a.data b.data

/-- Batch branch of `main` (lines 289-338): sort the matched audio files,
process each in turn, and report the summary string
`"{success_count}/{len(audio_files)}"` together with the per-file
outcomes. -/
def main_batch (eng : Nat → Bool) (tempo pitch : ℚ)
    (rain_file vinyl_file : Option String) (rain_volume vinyl_volume : ℚ)
    (loop_count : Option ℤ) (use_crossfade skip_eq keep_intermediate : Bool)
    (music_dir : String) (audio_files : List String) (st : St) :
    Option (List (String × Bool) × Nat × String × St) :=
  match batch_loop eng tempo pitch rain_file vinyl_file rain_volume vinyl_volume
      loop_count use_crossfade skip_eq keep_intermediate music_dir
      (List.insertionSort (fun a b => pyStrLe a b = true) audio_files) st with
  | none => none
  | some (outcomes, cnt, st') =>
    some (outcomes, cnt, toString cnt ++ "/" ++ toString audio_files.length, st')

/-- A concrete initial file system with a single source file, used by the
concrete witness runs below. -/
def st_init : St := ⟨[("in.wav", Content.orig "s")], 0, [], [], [], []⟩

/-- The final state of a concrete successful five-stage run (engine always
succeeding, loop count 3), used as the concrete instance for stage-order
reasoning. -/
def st_c3 : St :=
  ⟨[("out.wav",
     Content.loopCopy
       (Content.eqFilter
         (Content.copyOf
           (Content.pitch (Content.tempo (Content.orig "s") (Rat.mk' 39 40))
             (Rat.mk' 99 100)))) 3),
    ("in.wav", Content.orig "s")], 5, [],
   ["tempo", "pitch", "noise", "eq", "loop"],
   ["d/b_tempo.wav", "d/b_pitch.wav", "d/b_textured.wav", "d/b_final.wav"],
   ["d/b_tempo.wav", "d/b_pitch.wav", "d/b_textured.wav", "d/b_final.wav",
    "out.wav"]⟩

/-! ### Basic facts about the file-system model -/

lemma getFile_setFile (fs : FS) (p q : String) (c : Content) :
    getFile (setFile fs p c) q = if q = p then some c else getFile fs q := by
  simp [setFile, getFile]

lemma getFile_removeFile (fs : FS) (p q : String) :
    getFile (removeFile fs p) q = if q = p then none else getFile fs q := by
  induction fs with
  | nil => simp [removeFile, getFile]
  | cons e rest ih =>
    obtain ⟨a, c⟩ := e
    simp only [removeFile, List.filter_cons] at ih ⊢
    by_cases hap : a = p <;> by_cases hqa : q = a <;>
      simp_all [getFile, removeFile]

lemma renameFile_some {fs fs' : FS} {src dst : String}
    (h : renameFile fs src dst = some fs') :
    ∃ c, getFile fs src = some c ∧ fs' = setFile (removeFile fs src) dst c := by
  unfold renameFile at h
  cases hs : getFile fs src with
  | none => rw [hs] at h; exact absurd h (by simp)
  | some c => rw [hs] at h; exact ⟨c, rfl, by simpa using h.symm⟩

/-! ### Whole-result equations for the engine adapter and simple stages -/

lemma ratMk_eq_div (n : ℤ) (d : ℕ) (h1 : d ≠ 0) (h2 : n.natAbs.Coprime d) :
    (Rat.mk' n d h1 h2 : ℚ) = (n : ℚ) / (d : ℚ) := by
  rw [Rat.mk'_eq_divInt, Rat.divInt_eq_div]
  norm_num

lemma run_ffmpeg_eq (eng : Nat → Bool) (out : String) (c : Content) (st : St) :
    run_ffmpeg eng out c st =
      (eng st.calls,
       { st with fs := if eng st.calls then setFile st.fs out c else st.fs,
                 calls := st.calls + 1, ops := st.ops ++ [out] }) := by
  unfold run_ffmpeg
  split <;> simp_all

lemma step1_eq (eng : Nat → Bool) (i o : String) (t : ℚ) (st : St) :
    step1_change_tempo eng i o t st =
      (eng st.calls,
       { st with
          fs := if eng st.calls then setFile st.fs o (Content.tempo (readFile st.fs i) t)
                else st.fs,
          calls := st.calls + 1,
          warnings := st.warnings ++ (if t < 97/100 ∨ t > 103/100 then ["tempo"] else []),
          stages := st.stages ++ ["tempo"],
          ops := st.ops ++ [o] }) := by
  unfold step1_change_tempo
  have hb : (Rat.mk' 97 100 : ℚ) = 97/100 := by rw [ratMk_eq_div]; norm_num
  have hb2 : (Rat.mk' 103 100 : ℚ) = 103/100 := by rw [ratMk_eq_div]; norm_num
  rw [hb, hb2]
  split <;> rw [run_ffmpeg_eq] <;> simp

lemma step2_eq (eng : Nat → Bool) (i o : String) (t : ℚ) (st : St) :
    step2_change_pitch eng i o t st =
      (eng st.calls,
       { st with
          fs := if eng st.calls then
                  setFile st.fs o (Content.pitch (readFile st.fs i) t)
                else st.fs,
          calls := st.calls + 1,
          warnings := st.warnings ++ (if t < 99/100 ∨ t > 101/100 then ["pitch"] else []),
          stages := st.stages ++ ["pitch"],
          ops := st.ops ++ [o] }) := by
  unfold step2_change_pitch
  have hb : (Rat.mk' 99 100 : ℚ) = 99/100 := by rw [ratMk_eq_div]; norm_num
  have hb2 : (Rat.mk' 101 100 : ℚ) = 101/100 := by rw [ratMk_eq_div]; norm_num
  rw [hb, hb2]
  split <;> rw [run_ffmpeg_eq] <;> simp

lemma step4_eq (eng : Nat → Bool) (i o : String) (st : St) :
    step4_apply_eq eng i o st =
      (eng st.calls,
       { st with
          fs := if eng st.calls then setFile st.fs o (Content.eqFilter (readFile st.fs i))
                else st.fs,
          calls := st.calls + 1,
          stages := st.stages ++ ["eq"],
          ops := st.ops ++ [o] }) := by
  unfold step4_apply_eq
  rw [run_ffmpeg_eq]

lemma step5_eq (eng : Nat → Bool) (i o : String) (n : ℤ) (ucf : Bool) (st : St) :
    step5_create_loop eng i o n ucf st =
      (eng st.calls,
       { st with
          fs := if eng st.calls then setFile st.fs o (Content.loopCopy (readFile st.fs i) n)
                else st.fs,
          calls := st.calls + 1,
          stages := st.stages ++ ["loop"],
          ops := st.ops ++ [o] }) := by
  unfold step5_create_loop
  rw [run_ffmpeg_eq]

/-- C4: for every tempo factor and every pitch factor, in range or not, the
tempo and pitch stages process the value rather than rejecting it: the engine
is invoked exactly once, the stage's success flag is exactly the engine's
verdict (hence identical for any two factors `t`, `t'`), and the output file
is written on engine success — an out-of-range factor changes nothing but
the warning. -/
theorem c4_out_of_range_factors_processed :
    ∀ (eng : Nat → Bool) (i o : String) (t t' : ℚ) (st : St),
      (step1_change_tempo eng i o t st).1 = eng st.calls ∧
      (step1_change_tempo eng i o t st).1 = (step1_change_tempo eng i o t' st).1 ∧
      (step1_change_tempo eng i o t st).2.calls = st.calls + 1 ∧
      ((step1_change_tempo eng i o t st).2.fs =
        if eng st.calls then setFile st.fs o (Content.tempo (readFile st.fs i) t)
        else st.fs) ∧
      (step2_change_pitch eng i o t st).1 = eng st.calls ∧
      (step2_change_pitch eng i o t st).1 = (step2_change_pitch eng i o t' st).1 ∧
      (step2_change_pitch eng i o t st).2.calls = st.calls + 1 ∧
      ((step2_change_pitch eng i o t st).2.fs =
        if eng st.calls then
          setFile st.fs o (Content.pitch (readFile st.fs i) t)
        else st.fs) := by
  intro eng i o t t' st
  rw [step1_eq, step1_eq, step2_eq, step2_eq]
  simp

/-- C10: the out-of-range checks of the tempo and pitch stages are strict:
at factors exactly 0.97, 1.03 (tempo) and 0.99, 1.01 (pitch) no warning is
emitted, and a warning is emitted exactly when the factor is strictly below
the lower bound or strictly above the upper bound. -/
theorem c10_warning_bounds_strict :
    (∀ (eng : Nat → Bool) (i o : String) (st : St),
      (step1_change_tempo eng i o (97/100) st).2.warnings = st.warnings ∧
      (step1_change_tempo eng i o (103/100) st).2.warnings = st.warnings ∧
      (step2_change_pitch eng i o (99/100) st).2.warnings = st.warnings ∧
      (step2_change_pitch eng i o (101/100) st).2.warnings = st.warnings) ∧
    (∀ (eng : Nat → Bool) (i o : String) (t : ℚ) (st : St),
      ((step1_change_tempo eng i o t st).2.warnings ≠ st.warnings ↔
        (t < 97/100 ∨ 103/100 < t)) ∧
      ((step2_change_pitch eng i o t st).2.warnings ≠ st.warnings ↔
        (t < 99/100 ∨ 101/100 < t))) := by
  constructor
  · intro eng i o st
    rw [step1_eq, step1_eq, step2_eq, step2_eq]
    norm_num
  · intro eng i o t st
    rw [step1_eq, step2_eq]
    constructor
    · simp only [gt_iff_lt]
      rw [ne_eq, List.append_right_eq_self]
      split <;> simp_all
    · simp only [gt_iff_lt]
      rw [ne_eq, List.append_right_eq_self]
      split <;> simp_all

/-- C1 (bug witness): with an always-succeeding engine, an existing input
file, and both noise assets given but missing, `step3_add_noise` reports
success yet creates no file at its target path — the degenerate copy pass
the claim requires never happens, because the `else` branch at line 103 is
unreachable when `vinyl_file` is a nonempty string. -/
theorem c1_step3_missing_assets_no_output :
    (step3_add_noise (fun _ => true) "in.wav" "out.wav" (some "rain.wav")
        (some "vinyl.wav") (Rat.mk' 1 20) (Rat.mk' 3 100)
        ⟨[("in.wav", Content.orig "s")], 0, [], [], [], []⟩).map
      (fun r => (r.1, getFile r.2.fs "out.wav")) = some (true, none) := by
  decide

/-- C2 counterexample: a run in which the pitch stage fails (engine succeeds
only on its first invocation), with retention not requested, returns
`(false, none)` while the tempo intermediate from stage 1 is still on disk
and nothing at all was removed — cleanup is not performed on the failure
path, contradicting the claim. -/
theorem c2_counterexample_no_cleanup_on_failure :
    (process_single_file (fun n => n == 0) "in.wav" "out.wav" (Rat.mk' 39 40)
        (Rat.mk' 99 100) none none (Rat.mk' 1 20) (Rat.mk' 3 100) none true false false
        "b" "d" ⟨[("in.wav", Content.orig "s")], 0, [], [], [], []⟩).map
      (fun r => (r.1, getFile r.2.fs (mkPath "d" "b" "tempo"), r.2.removed)) =
      some ((false, none), some (Content.tempo (Content.orig "s") (Rat.mk' 39 40)), []) := by
  decide

lemma rain_phase_spec {eng : Nat → Bool} {i o : String} {rfo : Option String} {rv : ℚ}
    {st : St} {cont : Bool} {cur : String} {st1 : St}
    (h : step3_rain_phase eng i o rfo rv st = (cont, cur, st1)) :
    st1.stages = st.stages ∧ st1.removed = st.removed ∧
    ∃ l, st1.ops = st.ops ++ l ∧ l ⊆ [rainMixPath o] := by
  unfold step3_rain_phase at h
  split at h
  · split at h
    · split at h
      · rename_i st1x heq
        rw [run_ffmpeg_eq] at heq
        injection heq with hb hrec
        subst hrec
        injection h with h1 h2
        injection h2 with h3 h4
        subst h4
        refine ⟨by simp, by simp, [rainMixPath o], by simp, by simp⟩
      · rename_i st1x heq
        rw [run_ffmpeg_eq] at heq
        injection heq with hb hrec
        subst hrec
        injection h with h1 h2
        injection h2 with h3 h4
        subst h4
        refine ⟨by simp, by simp, [rainMixPath o], by simp, by simp⟩
    · injection h with h1 h2
      injection h2 with h3 h4
      subst h4
      refine ⟨by simp, by simp, [], by simp, by simp⟩
  · injection h with h1 h2
    injection h2 with h3 h4
    subst h4
    refine ⟨by simp, by simp, [], by simp, by simp⟩

lemma vinyl_phase_spec {eng : Nat → Bool} {i o : String} {vfo : Option String} {vv : ℚ}
    {cur : String} {st1 : St} {b : Bool} {st' : St}
    (h : step3_vinyl_phase eng i o vfo vv cur st1 = some (b, st')) :
    st'.stages = st1.stages ∧ st'.removed = st1.removed ∧
    ∃ l, st'.ops = st1.ops ++ l ∧ l ⊆ [o] := by
  unfold step3_vinyl_phase at h
  split at h
  · split at h
    · split at h
      rename_i ok st2 heq
      rw [run_ffmpeg_eq] at heq
      injection heq with hb hrec
      subst hrec
      injection h with h1
      injection h1 with hb2 hst
      subst hst
      refine ⟨by simp, by simp, [o], by simp, by simp⟩
    · split at h
      · split at h
        · exact absurd h (by simp)
        · rename_i fs2 heq
          injection h with h1
          injection h1 with hb2 hst
          subst hst
          refine ⟨by simp, by simp, [], by simp, by simp⟩
      · injection h with h1
        injection h1 with hb2 hst
        subst hst
        refine ⟨by simp, by simp, [], by simp, by simp⟩
  · split at h
    · split at h
      · exact absurd h (by simp)
      · rename_i fs2 heq
        injection h with h1
        injection h1 with hb2 hst
        subst hst
        refine ⟨by simp, by simp, [], by simp, by simp⟩
    · split at h
      rename_i ok st2 heq
      rw [run_ffmpeg_eq] at heq
      injection heq with hb hrec
      subst hrec
      injection h with h1
      injection h1 with hb2 hst
      subst hst
      refine ⟨by simp, by simp, [o], by simp, by simp⟩

lemma step3_spec {eng : Nat → Bool} {i o : String} {rfo vfo : Option String} {rv vv : ℚ}
    {st : St} {b : Bool} {st' : St}
    (h : step3_add_noise eng i o rfo vfo rv vv st = some (b, st')) :
    st'.stages = st.stages ++ ["noise"] ∧ st'.removed = st.removed ∧
    ∃ l, st'.ops = st.ops ++ l ∧ l ⊆ [rainMixPath o, o] := by
  unfold step3_add_noise at h
  rcases hr : step3_rain_phase eng i o rfo rv { st with stages := st.stages ++ ["noise"] }
    with ⟨cont, cur, st1⟩
  rw [hr] at h
  obtain ⟨hs, hrm, l1, hops1, hl1⟩ := rain_phase_spec hr
  rcases cont with _ | _
  · injection h with h1
    injection h1 with hb hst
    subst hst
    refine ⟨by simp_all, by simp_all, l1, by simp_all, ?_⟩
    intro x hx
    have := hl1 hx
    simp_all
  · obtain ⟨hs2, hrm2, l2, hops2, hl2⟩ := vinyl_phase_spec h
    refine ⟨by simp_all, by simp_all, l1 ++ l2, by simp [hops2, hops1, hs], ?_⟩
    intro x hx
    rcases List.mem_append.mp hx with hx1 | hx2
    · have := hl1 hx1
      simp_all
    · have := hl2 hx2
      simp_all

lemma cleanup_keep (files : List String) (st : St) :
    cleanup_intermediate_files true files st = st := by
  unfold cleanup_intermediate_files
  simp

lemma cleanupFold_spec (files : List String) (st : St) :
    ((files.foldl
        (fun s p =>
          if (getFile s.fs p).isSome then
            { s with fs := removeFile s.fs p, removed := s.removed ++ [p] }
          else s)
        st).calls = st.calls ∧
     (files.foldl
        (fun s p =>
          if (getFile s.fs p).isSome then
            { s with fs := removeFile s.fs p, removed := s.removed ++ [p] }
          else s)
        st).stages = st.stages ∧
     (files.foldl
        (fun s p =>
          if (getFile s.fs p).isSome then
            { s with fs := removeFile s.fs p, removed := s.removed ++ [p] }
          else s)
        st).warnings = st.warnings ∧
     (files.foldl
        (fun s p =>
          if (getFile s.fs p).isSome then
            { s with fs := removeFile s.fs p, removed := s.removed ++ [p] }
          else s)
        st).ops = st.ops) ∧
    (∃ l, (files.foldl
        (fun s p =>
          if (getFile s.fs p).isSome then
            { s with fs := removeFile s.fs p, removed := s.removed ++ [p] }
          else s)
        st).removed = st.removed ++ l ∧ l ⊆ files) := by
  induction files generalizing st with
  | nil => simp
  | cons p rest ih =>
    simp only [List.foldl_cons]
    by_cases hp : (getFile st.fs p).isSome
    · obtain ⟨⟨h1, h2, h3, h4⟩, l, h5, h6⟩ :=
        ih { st with fs := removeFile st.fs p, removed := st.removed ++ [p] }
      rw [if_pos hp]
      refine ⟨⟨by simp [h1], by simp [h2], by simp [h3], by simp [h4]⟩, p :: l, ?_, ?_⟩
      · simp [h5]
      · intro x hx
        simp only [List.mem_cons] at hx
        rcases hx with rfl | hx
        · simp
        · have := h6 hx
          simp_all
    · obtain ⟨⟨h1, h2, h3, h4⟩, l, h5, h6⟩ := ih st
      rw [if_neg hp]
      refine ⟨⟨h1, h2, h3, h4⟩, l, h5, ?_⟩
      intro x hx
      have := h6 hx
      simp_all

lemma cleanup_spec (k : Bool) (files : List String) (st : St) :
    ((cleanup_intermediate_files k files st).calls = st.calls ∧
     (cleanup_intermediate_files k files st).stages = st.stages ∧
     (cleanup_intermediate_files k files st).warnings = st.warnings ∧
     (cleanup_intermediate_files k files st).ops = st.ops) ∧
    (∃ l, (cleanup_intermediate_files k files st).removed = st.removed ++ l ∧
      l ⊆ files) := by
  unfold cleanup_intermediate_files
  split
  · exact ⟨⟨rfl, rfl, rfl, rfl⟩, [], by simp, by simp⟩
  · exact cleanupFold_spec files st

lemma cleanupFold_getFile {files : List String} {q : String} (st : St)
    (hq : q ∉ files) :
    getFile ((files.foldl
        (fun s p =>
          if (getFile s.fs p).isSome then
            { s with fs := removeFile s.fs p, removed := s.removed ++ [p] }
          else s)
        st)).fs q = getFile st.fs q := by
  induction files generalizing st with
  | nil => simp
  | cons p rest ih =>
    simp only [List.foldl_cons]
    have hqp : q ≠ p := fun hh => hq (by simp [hh])
    have hqr : q ∉ rest := fun hh => hq (by simp [hh])
    by_cases hp : (getFile st.fs p).isSome
    · rw [if_pos hp, ih _ hqr]
      simp [getFile_removeFile, hqp]
    · rw [if_neg hp, ih _ hqr]

lemma cleanup_getFile {k : Bool} {files : List String} {q : String} (st : St)
    (hq : q ∉ files) :
    getFile (cleanup_intermediate_files k files st).fs q = getFile st.fs q := by
  unfold cleanup_intermediate_files
  split
  · rfl
  · exact cleanupFold_getFile st hq

lemma pipelineStages123_spec {eng : Nat → Bool} {input : String} {tempo pitch : ℚ}
    {rfo vfo : Option String} {rv vv : ℚ} {base wd : String} {st : St}
    {bb : Bool} {st3 : St}
    (h : pipelineStages123 eng input tempo pitch rfo vfo rv vv base wd st = some (bb, st3)) :
    st3.removed = st.removed ∧
    (∃ l, st3.stages = st.stages ++ l ∧
      (l = ["tempo"] ∨ l = ["tempo", "pitch"] ∨ l = ["tempo", "pitch", "noise"]) ∧
      (bb = true → l = ["tempo", "pitch", "noise"])) ∧
    (∃ lo, st3.ops = st.ops ++ lo ∧
      lo ⊆ [mkPath wd base "tempo", mkPath wd base "pitch",
            rainMixPath (mkPath wd base "textured"), mkPath wd base "textured"]) := by
  simp only [pipelineStages123] at h
  split at h
  · -- step1 failed
    rename_i st1 heq
    rw [step1_eq] at heq
    injection heq with hb hrec
    injection h with h1
    injection h1 with hbb hst
    subst hst
    subst hrec
    subst hbb
    refine ⟨by simp, ⟨["tempo"], by simp, by simp, by simp⟩,
      ⟨[mkPath wd base "tempo"], by simp, by simp⟩⟩
  · -- step1 ok
    rename_i st1 heq1
    rw [step1_eq] at heq1
    injection heq1 with hb1 hrec1
    subst hrec1
    split at h
    · -- step2 failed
      rename_i st2 heq2
      rw [step2_eq] at heq2
      injection heq2 with hb2 hrec2
      injection h with h1
      injection h1 with hbb hst
      subst hst
      subst hrec2
      subst hbb
      refine ⟨by simp, ⟨["tempo", "pitch"], by simp, by simp, by simp⟩,
        ⟨[mkPath wd base "tempo", mkPath wd base "pitch"], by simp, by simp⟩⟩
    · -- step2 ok, step3 terminal
      rename_i st2 heq2
      rw [step2_eq] at heq2
      injection heq2 with hb2 hrec2
      subst hrec2
      obtain ⟨hs3, hrm3, lo3, hops3, hlo3⟩ := step3_spec h
      refine ⟨by simp [hrm3], ⟨["tempo", "pitch", "noise"], by simp [hs3], by simp, by simp⟩,
        ⟨[mkPath wd base "tempo", mkPath wd base "pitch"] ++ lo3, ?_, ?_⟩⟩
      · simp [hops3]
      · intro x hx
        simp only [List.mem_append] at hx
        rcases hx with hx | hx
        · simp only [List.mem_cons] at hx
          rcases hx with rfl | hx
          · simp
          · simp_all
        · have := hlo3 hx
          simp_all

lemma cleanup_calls (k : Bool) (files : List String) (st : St) :
    (cleanup_intermediate_files k files st).calls = st.calls :=
  (cleanup_spec k files st).1.1

lemma cleanup_stages (k : Bool) (files : List String) (st : St) :
    (cleanup_intermediate_files k files st).stages = st.stages :=
  (cleanup_spec k files st).1.2.1

lemma cleanup_warnings (k : Bool) (files : List String) (st : St) :
    (cleanup_intermediate_files k files st).warnings = st.warnings :=
  (cleanup_spec k files st).1.2.2.1

lemma cleanup_ops (k : Bool) (files : List String) (st : St) :
    (cleanup_intermediate_files k files st).ops = st.ops :=
  (cleanup_spec k files st).1.2.2.2

lemma pipelineFinish_spec {eng : Nat → Bool} {output : String} {lc : Option ℤ}
    {ucf keep : Bool} {ff : String} {files : List String} {st : St}
    {r : Bool × Option String} {st' : St}
    (h : pipelineFinish eng output lc ucf keep ff files st = some (r, st')) :
    ((r = (false, none) ∧ st'.removed = st.removed) ∨ r = (true, some output)) ∧
    (st'.stages = st.stages ++ (if loopTruthy lc then ["loop"] else [])) ∧
    (∃ lo, st'.ops = st.ops ++ lo ∧ lo ⊆ [output]) := by
  simp only [pipelineFinish] at h
  split at h
  · rename_i hlt
    split at h
    · rename_i st5 heq
      rw [step5_eq] at heq
      injection heq with hb hrec
      injection h with h1
      injection h1 with hr hst
      subst hst
      subst hrec
      subst hr
      exact ⟨Or.inl ⟨rfl, by simp⟩, by simp [hlt], ⟨[output], by simp, by simp⟩⟩
    · rename_i st5 heq
      rw [step5_eq] at heq
      injection heq with hb hrec
      injection h with h1
      injection h1 with hr hst
      subst hst
      subst hrec
      subst hr
      exact ⟨Or.inr rfl, by simp [cleanup_stages, hlt],
        ⟨[output], by simp [cleanup_ops], by simp⟩⟩
  · rename_i hlt
    split at h
    · exact absurd h (by simp)
    · rename_i st5 heq
      injection h with h1
      injection h1 with hr hst
      subst hst
      subst hr
      have hst5 : st5.stages = st.stages ∧ st5.ops = st.ops := by
        split at heq
        · obtain ⟨fs5, hfs5, hst5⟩ := Option.map_eq_some'.mp heq
          subst hst5
          exact ⟨rfl, rfl⟩
        · injection heq with h2
          subst h2
          exact ⟨rfl, rfl⟩
      refine ⟨Or.inr rfl, ?_, ⟨[], ?_, by simp⟩⟩
      · simp [cleanup_stages, hst5.1, hlt]
      · simp [cleanup_ops, hst5.2]

lemma process_single_file_spec {eng : Nat → Bool} {input output : String}
    {tempo pitch : ℚ} {rfo vfo : Option String} {rv vv : ℚ} {lc : Option ℤ}
    {ucf skip keep : Bool} {base wd : String} {st : St}
    {r : Bool × Option String} {st' : St}
    (h : process_single_file eng input output tempo pitch rfo vfo rv vv lc
      ucf skip keep base wd st = some (r, st')) :
    ((r = (false, none) ∧ st'.removed = st.removed) ∨ r = (true, some output)) ∧
    (∃ l, st'.stages = st.stages ++ l ∧
      l <+: (["tempo", "pitch", "noise"] ++ (if skip then [] else ["eq"]) ++
             (if loopTruthy lc then ["loop"] else [])) ∧
      (r.1 = true →
        l = ["tempo", "pitch", "noise"] ++ (if skip then [] else ["eq"]) ++
            (if loopTruthy lc then ["loop"] else []))) ∧
    (∃ lo, st'.ops = st.ops ++ lo ∧
      lo ⊆ [mkPath wd base "tempo", mkPath wd base "pitch",
            rainMixPath (mkPath wd base "textured"), mkPath wd base "textured",
            mkPath wd base "final", output]) := by
  simp only [process_single_file] at h
  split at h
  · exact absurd h (by simp)
  · -- stages 1-3 failed
    rename_i st3 heq
    obtain ⟨hrm, ⟨l, hl, hlc, _⟩, lo, hops, hlo⟩ := pipelineStages123_spec heq
    injection h with h1
    injection h1 with hr hst
    subst hst
    subst hr
    refine ⟨Or.inl ⟨rfl, hrm⟩, ⟨l, hl, ?_, by simp⟩, ⟨lo, hops, ?_⟩⟩
    · rcases hlc with rfl | rfl | rfl
      · exact ⟨["pitch", "noise"] ++ (if skip then [] else ["eq"]) ++
          (if loopTruthy lc then ["loop"] else []), by simp⟩
      · exact ⟨["noise"] ++ (if skip then [] else ["eq"]) ++
          (if loopTruthy lc then ["loop"] else []), by simp⟩
      · exact ⟨(if skip then [] else ["eq"]) ++
          (if loopTruthy lc then ["loop"] else []), by simp⟩
    · intro x hx
      have := hlo hx
      simp only [List.mem_cons, List.not_mem_nil, or_false] at this ⊢
      tauto
  · -- stages 1-3 ok
    rename_i st3 heq
    obtain ⟨hrm, ⟨l, hl, _, hlc⟩, lo, hops, hlo⟩ := pipelineStages123_spec heq
    have hl3 : l = ["tempo", "pitch", "noise"] := hlc rfl
    subst hl3
    rcases skip with _ | _
    · -- skip_eq = false: the EQ stage runs
      rcases hb4 : eng st3.calls with _ | _
      · -- EQ failed
        simp only [pipelineEqStage, Bool.false_eq_true, if_false, step4_eq, hb4] at h
        injection h with h1
        injection h1 with hr hst
        subst hst
        subst hr
        refine ⟨Or.inl ⟨rfl, by simp [hrm]⟩,
          ⟨["tempo", "pitch", "noise", "eq"], by simp [hl], ?_, by simp⟩,
          ⟨lo ++ [mkPath wd base "final"], by simp [hops], ?_⟩⟩
        · exact ⟨(if loopTruthy lc then ["loop"] else []), by simp⟩
        · intro x hx
          simp only [List.mem_append, List.mem_singleton] at hx
          rcases hx with hx | rfl
          · have := hlo hx
            simp only [List.mem_cons, List.not_mem_nil, or_false] at this ⊢
            tauto
          · simp
      · -- EQ ok, go to finish
        simp only [pipelineEqStage, Bool.false_eq_true, if_false, step4_eq, hb4] at h
        obtain ⟨hor, hst5, lo2, hops2, hlo2⟩ := pipelineFinish_spec h
        refine ⟨?_, ⟨["tempo", "pitch", "noise", "eq"] ++
            (if loopTruthy lc then ["loop"] else []), by simp [hst5, hl], ?_, by simp⟩,
          ⟨(lo ++ [mkPath wd base "final"]) ++ lo2, by simp [hops2, hops], ?_⟩⟩
        · rcases hor with ⟨hr, hrm2⟩ | hr
          · exact Or.inl ⟨hr, by simp_all⟩
          · exact Or.inr hr
        · exact ⟨[], by simp⟩
        · intro x hx
          simp only [List.mem_append, List.mem_singleton] at hx
          rcases hx with hx | hx
          · rcases hx with hx | rfl
            · have := hlo hx
              simp only [List.mem_cons, List.not_mem_nil, or_false] at this ⊢
              tauto
            · simp
          · have := hlo2 hx
            simp only [List.mem_cons, List.not_mem_nil, or_false] at this ⊢
            tauto
    · -- skip_eq = true: noise output is final
      simp only [pipelineEqStage, if_true] at h
      obtain ⟨hor, hst5, lo2, hops2, hlo2⟩ := pipelineFinish_spec h
      refine ⟨?_, ⟨["tempo", "pitch", "noise"] ++
          (if loopTruthy lc then ["loop"] else []), by simp [hst5, hl], ?_, by simp⟩,
        ⟨lo ++ lo2, by simp [hops2, hops], ?_⟩⟩
      · rcases hor with ⟨hr, hrm2⟩ | hr
        · exact Or.inl ⟨hr, by simp_all⟩
        · exact Or.inr hr
      · exact ⟨[], by simp⟩
      · intro x hx
        simp only [List.mem_append] at hx
        rcases hx with hx | hx
        · have := hlo hx
          simp only [List.mem_cons, List.not_mem_nil, or_false] at this ⊢
          tauto
        · have := hlo2 hx
          simp only [List.mem_cons, List.not_mem_nil, or_false] at this ⊢
          tauto

/-- C2 amended: when a stage fails, `process_single_file` reports failure with
no final output, but cleanup is NOT performed on the failure path: the run
returns immediately and removes nothing, so the intermediates created by the
earlier stages remain on disk.  Cleanup happens only after all stages
succeed. -/
theorem c2_failure_skips_cleanup :
    ∀ (eng : Nat → Bool) (input output : String) (tempo pitch : ℚ)
      (rfo vfo : Option String) (rv vv : ℚ) (lc : Option ℤ)
      (ucf skip keep : Bool) (base wd : String) (st : St)
      (r : Bool × Option String) (st' : St),
      process_single_file eng input output tempo pitch rfo vfo rv vv lc
        ucf skip keep base wd st = some (r, st') →
      r.1 = false →
      r.2 = none ∧ st'.removed = st.removed := by
  intro eng input output tempo pitch rfo vfo rv vv lc ucf skip keep base wd st r st' h hr
  obtain ⟨hor, _, _⟩ := process_single_file_spec h
  rcases hor with ⟨hr0, hrm⟩ | hr0
  · subst hr0
    exact ⟨rfl, hrm⟩
  · subst hr0
    simp at hr

/-- Witness for `c2_failure_skips_cleanup`: the concrete failing run used by
the counterexample (engine fails at its second invocation, in the pitch
stage). -/
theorem c2_failure_skips_cleanup_witness :
    (process_single_file (fun n => n == 0) "in.wav" "out.wav" (Rat.mk' 39 40)
        (Rat.mk' 99 100) none none (Rat.mk' 1 20) (Rat.mk' 3 100) none true false false
        "b" "d" st_init =
      some ((false, none),
        ⟨[("d/b_tempo.wav", Content.tempo (Content.orig "s") (Rat.mk' 39 40)),
          ("in.wav", Content.orig "s")], 2, [], ["tempo", "pitch"], [],
         ["d/b_tempo.wav", "d/b_pitch.wav"]⟩) ∧
      ((false, none) : Bool × Option String).1 = false) ∧
    ((false, none) : Bool × Option String).2 = none ∧
    (⟨[("d/b_tempo.wav", Content.tempo (Content.orig "s") (Rat.mk' 39 40)),
       ("in.wav", Content.orig "s")], 2, [], ["tempo", "pitch"], [],
      ["d/b_tempo.wav", "d/b_pitch.wav"]⟩ : St).removed = st_init.removed :=
  ⟨⟨by decide, rfl⟩,
    c2_failure_skips_cleanup (fun n => n == 0) "in.wav" "out.wav" (Rat.mk' 39 40)
      (Rat.mk' 99 100) none none (Rat.mk' 1 20) (Rat.mk' 3 100) none true false false
      "b" "d" st_init (false, none) _ (by decide) rfl⟩

/-- Unfolding of the tempo-pitch-noise phase as a success cascade: the pitch
stage is applied only to the state of a successful tempo stage, the noise
stage only to the state of a successful pitch stage, and a stage returning
failure makes its own state the whole phase result. -/
lemma pipelineStages123_cascade {eng : Nat → Bool} {input : String} {tempo pitch : ℚ}
    {rfo vfo : Option String} {rv vv : ℚ} {base wd : String} {st : St}
    {X : Option (Bool × St)}
    (h : pipelineStages123 eng input tempo pitch rfo vfo rv vv base wd st = X) :
    ∃ b1 st1, step1_change_tempo eng input (mkPath wd base "tempo") tempo st = (b1, st1) ∧
      ((b1 = false ∧ X = some (false, st1)) ∨
       (b1 = true ∧ ∃ b2 st2,
         step2_change_pitch eng (mkPath wd base "tempo") (mkPath wd base "pitch")
           pitch st1 = (b2, st2) ∧
         ((b2 = false ∧ X = some (false, st2)) ∨
          (b2 = true ∧
            step3_add_noise eng (mkPath wd base "pitch") (mkPath wd base "textured")
              rfo vfo rv vv st2 = X)))) := by
  simp only [pipelineStages123] at h
  split at h
  · rename_i st1 heq1
    exact ⟨false, st1, heq1, Or.inl ⟨rfl, h.symm⟩⟩
  · rename_i st1 heq1
    split at h
    · rename_i st2 heq2
      exact ⟨true, st1, heq1, Or.inr ⟨rfl, false, st2, heq2, Or.inl ⟨rfl, h.symm⟩⟩⟩
    · rename_i st2 heq2
      exact ⟨true, st1, heq1, Or.inr ⟨rfl, true, st2, heq2, Or.inr ⟨rfl, h⟩⟩⟩

/-- Unfolding of the finishing phase as a success cascade: when a loop is
requested, a failing loop stage makes its own state the run result, and only
a successful loop stage is followed by cleanup. -/
lemma pipelineFinish_cascade {eng : Nat → Bool} {output : String} {lc : Option ℤ}
    {ucf keep : Bool} {ff : String} {files : List String} {st : St}
    {r : Bool × Option String} {st' : St}
    (h : pipelineFinish eng output lc ucf keep ff files st = some (r, st')) :
    (loopTruthy lc = false ∧ r = (true, some output)) ∨
    (loopTruthy lc = true ∧ ∃ b5 st5,
      step5_create_loop eng ff output (lc.getD 0) ucf st = (b5, st5) ∧
      ((b5 = false ∧ r = (false, none) ∧ st' = st5) ∨
       (b5 = true ∧ r = (true, some output) ∧
         st' = cleanup_intermediate_files keep files st5))) := by
  simp only [pipelineFinish] at h
  split at h
  · rename_i hlt
    split at h
    · rename_i st5 heq5
      injection h with h1
      injection h1 with hr hst
      exact Or.inr ⟨hlt, false, st5, heq5, Or.inl ⟨rfl, hr.symm, hst.symm⟩⟩
    · rename_i st5 heq5
      injection h with h1
      injection h1 with hr hst
      exact Or.inr ⟨hlt, true, st5, heq5, Or.inr ⟨rfl, hr.symm, hst.symm⟩⟩
  · rename_i hlt
    split at h
    · exact absurd h (by simp)
    · rename_i st5 heq5
      injection h with h1
      injection h1 with hr hst
      exact Or.inl ⟨by simpa using hlt, hr.symm⟩

/-- C3: stages execute in the fixed order tempo, pitch, noise, EQ (unless
skipped), loop (unless the loop count is absent or zero): the entered stages
form a prefix of that order, entered in full exactly on success; moreover
each stage function is applied only to the state of the preceding stage's
successful return (the success cascade below), and the first stage failure
ends the run immediately — the run result is `(false, none)` with final
state exactly the failing stage's returned state, so no later stage, engine
call or cleanup happens after a failure.  The run returns `(true, some
output)` on completion or `(false, none)` on failure. -/
theorem c3_fixed_stage_order :
    ∀ (eng : Nat → Bool) (input output : String) (tempo pitch : ℚ)
      (rfo vfo : Option String) (rv vv : ℚ) (lc : Option ℤ)
      (ucf skip keep : Bool) (base wd : String) (st : St)
      (r : Bool × Option String) (st' : St),
      process_single_file eng input output tempo pitch rfo vfo rv vv lc
        ucf skip keep base wd st = some (r, st') →
      (r = (true, some output) ∨ r = (false, none)) ∧
      (∃ l, st'.stages = st.stages ++ l ∧
        l <+: (["tempo", "pitch", "noise"] ++ (if skip then [] else ["eq"]) ++
               (if loopTruthy lc then ["loop"] else [])) ∧
        (r.1 = true →
          l = ["tempo", "pitch", "noise"] ++ (if skip then [] else ["eq"]) ++
              (if loopTruthy lc then ["loop"] else []))) ∧
      (∃ b1 st1, step1_change_tempo eng input (mkPath wd base "tempo") tempo st = (b1, st1) ∧
        ((b1 = false ∧ r = (false, none) ∧ st' = st1) ∨
         (b1 = true ∧ ∃ b2 st2,
           step2_change_pitch eng (mkPath wd base "tempo") (mkPath wd base "pitch")
             pitch st1 = (b2, st2) ∧
           ((b2 = false ∧ r = (false, none) ∧ st' = st2) ∨
            (b2 = true ∧ ∃ b3 st3,
              step3_add_noise eng (mkPath wd base "pitch") (mkPath wd base "textured")
                rfo vfo rv vv st2 = some (b3, st3) ∧
              ((b3 = false ∧ r = (false, none) ∧ st' = st3) ∨
               (b3 = true ∧ ∃ b4 ff files st4,
                 pipelineEqStage eng skip base wd st3 = (b4, ff, files, st4) ∧
                 ((b4 = false ∧ r = (false, none) ∧ st' = st4) ∨
                  (b4 = true ∧
                    ((loopTruthy lc = false ∧ r = (true, some output)) ∨
                     (loopTruthy lc = true ∧ ∃ b5 st5,
                       step5_create_loop eng ff output (lc.getD 0) ucf st4 = (b5, st5) ∧
                       ((b5 = false ∧ r = (false, none) ∧ st' = st5) ∨
                        (b5 = true ∧ r = (true, some output) ∧
                          st' = cleanup_intermediate_files keep files st5))))))))))))) := by
  intro eng input output tempo pitch rfo vfo rv vv lc ucf skip keep base wd st r st' h
  obtain ⟨hor, hst, _⟩ := process_single_file_spec h
  refine ⟨?_, hst, ?_⟩
  · rcases hor with ⟨hr0, _⟩ | hr0
    · exact Or.inr hr0
    · exact Or.inl hr0
  · clear hor hst
    simp only [process_single_file] at h
    split at h
    · exact absurd h (by simp)
    · rename_i stF heq
      injection h with h1
      injection h1 with hr hstF
      obtain ⟨b1, st1, hs1, hc⟩ := pipelineStages123_cascade heq
      refine ⟨b1, st1, hs1, ?_⟩
      rcases hc with ⟨hb1, hX⟩ | ⟨hb1, b2, st2, hs2, hc2⟩
      · injection hX with hX1
        injection hX1 with hb hstX
        exact Or.inl ⟨hb1, hr.symm, hstF.symm.trans hstX⟩
      · rcases hc2 with ⟨hb2, hX⟩ | ⟨hb2, hterm⟩
        · injection hX with hX1
          injection hX1 with hb hstX
          exact Or.inr ⟨hb1, b2, st2, hs2, Or.inl ⟨hb2, hr.symm, hstF.symm.trans hstX⟩⟩
        · exact Or.inr ⟨hb1, b2, st2, hs2, Or.inr ⟨hb2, false, stF, hterm,
            Or.inl ⟨rfl, hr.symm, hstF.symm⟩⟩⟩
    · rename_i st3g heq
      obtain ⟨b1, st1, hs1, hc⟩ := pipelineStages123_cascade heq
      refine ⟨b1, st1, hs1, ?_⟩
      rcases hc with ⟨hb1, hX⟩ | ⟨hb1, b2, st2, hs2, hc2⟩
      · injection hX with hX1
        injection hX1 with hb hstX
        exact Bool.noConfusion hb
      · rcases hc2 with ⟨hb2, hX⟩ | ⟨hb2, hterm⟩
        · injection hX with hX1
          injection hX1 with hb hstX
          exact Bool.noConfusion hb
        · refine Or.inr ⟨hb1, b2, st2, hs2, Or.inr ⟨hb2, true, st3g, hterm, ?_⟩⟩
          split at h
          · rename_i x y st4 heq4
            injection h with h1
            injection h1 with hr hstF
            exact Or.inr ⟨rfl, false, x, y, st4, heq4, Or.inl ⟨rfl, hr.symm, hstF.symm⟩⟩
          · rename_i ff files st4 heq4
            exact Or.inr ⟨rfl, true, ff, files, st4, heq4,
              Or.inr ⟨rfl, pipelineFinish_cascade h⟩⟩

/-- Witness for `c3_fixed_stage_order`: a full successful run with EQ and a
loop count of 3 enters exactly tempo, pitch, noise, eq, loop, every cascade
stage succeeding. -/
theorem c3_fixed_stage_order_witness :
    (process_single_file (fun _ => true) "in.wav" "out.wav" (Rat.mk' 39 40)
        (Rat.mk' 99 100) none none (Rat.mk' 1 20) (Rat.mk' 3 100) (some 3) true false false
        "b" "d" st_init = some ((true, some "out.wav"), st_c3)) ∧
    (((true, some "out.wav") : Bool × Option String) = (true, some "out.wav") ∨
      ((true, some "out.wav") : Bool × Option String) = (false, none)) ∧
    (∃ l, st_c3.stages = st_init.stages ++ l ∧
      l <+: (["tempo", "pitch", "noise"] ++ (if false then [] else ["eq"]) ++
             (if loopTruthy (some 3) then ["loop"] else [])) ∧
      (((true, some "out.wav") : Bool × Option String).1 = true →
        l = ["tempo", "pitch", "noise"] ++ (if false then [] else ["eq"]) ++
            (if loopTruthy (some 3) then ["loop"] else []))) ∧
    (∃ b1 st1, step1_change_tempo (fun _ => true) "in.wav" (mkPath "d" "b" "tempo")
        (Rat.mk' 39 40) st_init = (b1, st1) ∧
      ((b1 = false ∧ ((true, some "out.wav") : Bool × Option String) = (false, none) ∧
          st_c3 = st1) ∨
       (b1 = true ∧ ∃ b2 st2,
         step2_change_pitch (fun _ => true) (mkPath "d" "b" "tempo") (mkPath "d" "b" "pitch")
           (Rat.mk' 99 100) st1 = (b2, st2) ∧
         ((b2 = false ∧ ((true, some "out.wav") : Bool × Option String) = (false, none) ∧
             st_c3 = st2) ∨
          (b2 = true ∧ ∃ b3 st3,
            step3_add_noise (fun _ => true) (mkPath "d" "b" "pitch") (mkPath "d" "b" "textured")
              none none (Rat.mk' 1 20) (Rat.mk' 3 100) st2 = some (b3, st3) ∧
            ((b3 = false ∧ ((true, some "out.wav") : Bool × Option String) = (false, none) ∧
                st_c3 = st3) ∨
             (b3 = true ∧ ∃ b4 ff files st4,
               pipelineEqStage (fun _ => true) false "b" "d" st3 = (b4, ff, files, st4) ∧
               ((b4 = false ∧ ((true, some "out.wav") : Bool × Option String) = (false, none) ∧
                   st_c3 = st4) ∨
                (b4 = true ∧
                  ((loopTruthy (some 3) = false ∧
                     ((true, some "out.wav") : Bool × Option String) = (true, some "out.wav")) ∨
                   (loopTruthy (some 3) = true ∧ ∃ b5 st5,
                     step5_create_loop (fun _ => true) ff "out.wav" ((some (3 : ℤ)).getD 0)
                       true st4 = (b5, st5) ∧
                     ((b5 = false ∧
                        ((true, some "out.wav") : Bool × Option String) = (false, none) ∧
                        st_c3 = st5) ∨
                      (b5 = true ∧
                        ((true, some "out.wav") : Bool × Option String) = (true, some "out.wav") ∧
                        st_c3 = cleanup_intermediate_files false files st5))))))))))))) :=
  ⟨by decide,
    c3_fixed_stage_order (fun _ => true) "in.wav" "out.wav" (Rat.mk' 39 40)
      (Rat.mk' 99 100) none none (Rat.mk' 1 20) (Rat.mk' 3 100) (some 3) true false false
      "b" "d" st_init ((true, some "out.wav")) st_c3 (by decide)⟩

/-- Helper: a list cut down to a prefix of another list. -/
lemma take_of_append_eq {α : Type} {xs t ys : List α} (h : xs ++ t = ys) :
    ys.take xs.length = xs := by
  subst h
  rw [List.take_append_of_le_length (le_refl _), List.take_length]

lemma replaceAux_nil (pat rep : List Char) (fuel : Nat) :
    replaceAux pat rep fuel [] = [] := by
  cases fuel <;> rfl

lemma replaceAux_suffix {pat : List Char} (rep : List Char) (hne : pat ≠ [])
    (l : List Char) (H : ¬ (pat <:+: (l ++ pat.dropLast)))
    (fuel : Nat) (hf : (l ++ pat).length ≤ fuel) :
    replaceAux pat rep fuel (l ++ pat) = l ++ rep := by
  induction l generalizing fuel with
  | nil =>
    rcases pat with _ | ⟨c, rest⟩
    · exact absurd rfl hne
    · rcases fuel with _ | fuel
      · simp at hf
      · simp only [List.nil_append]
        show replaceAux (c :: rest) rep (fuel + 1) (c :: rest) = rep
        rw [replaceAux]
        rw [if_pos ⟨by rw [ List.isPrefixOf_iff_prefix], by simp⟩]
        have : List.drop ((c :: rest).length - 1) rest = [] := by
          simp
        rw [this, replaceAux_nil]
        simp
  | cons c l' ih =>
    rcases fuel with _ | fuel
    · simp at hf
    · show replaceAux pat rep (fuel + 1) (c :: (l' ++ pat)) = c :: l' ++ rep
      rw [replaceAux]
      have hnp : ¬ (List.isPrefixOf pat (c :: (l' ++ pat)) = true ∧ pat ≠ []) := by
        rintro ⟨hp, -⟩
        rw [ List.isPrefixOf_iff_prefix] at hp
        obtain ⟨t, ht⟩ := hp
        apply H
        have hlen1 : 1 ≤ pat.length := List.length_pos.mpr hne
        have key1 : (c :: (l' ++ pat)).take pat.length = pat := take_of_append_eq ht
        have hsplit : (c :: l') ++ pat.dropLast ++ [pat.getLast hne] = c :: (l' ++ pat) := by
          have h5 := List.dropLast_append_getLast hne
          simp only [List.append_assoc, h5, List.cons_append]
        have key2 : ((c :: l') ++ pat.dropLast).take pat.length = pat := by
          have hle : pat.length ≤ ((c :: l') ++ pat.dropLast).length := by
            simp [List.length_dropLast]
            omega
          calc ((c :: l') ++ pat.dropLast).take pat.length
              = (((c :: l') ++ pat.dropLast) ++ [pat.getLast hne]).take pat.length := by
                rw [List.take_append_of_le_length hle]
            _ = (c :: (l' ++ pat)).take pat.length := by rw [hsplit]
            _ = pat := key1
        refine ⟨[], ((c :: l') ++ pat.dropLast).drop pat.length, ?_⟩
        simp only [List.nil_append]
        conv_rhs => rw [← List.take_append_drop pat.length ((c :: l') ++ pat.dropLast)]
        rw [key2]
      rw [if_neg hnp]
      have H' : ¬ (pat <:+: (l' ++ pat.dropLast)) := by
        rintro ⟨s, u, hsu⟩
        exact H ⟨c :: s, u, by simp [← hsu]⟩
      have hf' : (l' ++ pat).length ≤ fuel := by
        simp only [List.cons_append, List.length_cons] at hf
        omega
      rw [ih H' fuel hf']
      simp

lemma asString_eq {l : List Char} {s : String} (h : l = s.data) :
    List.asString l = s := by
  cases s
  cases h
  rfl

lemma mkPath_data (d b t : String) :
    (mkPath d b t).data =
      d.data ++ ("/".data ++ (b.data ++ ("_".data ++ (t.data ++ ".wav".data)))) := by
  simp [mkPath, String.data_append, List.append_assoc]

lemma rainMixPath_textured (d b : String)
    (H : ¬ ((".wav".data : List Char) <:+:
      (d.data ++ ("/".data ++ (b.data ++ "_textured.wa".data))))) :
    rainMixPath (mkPath d b "textured") = mkPath d b "textured_rain" := by
  have hpat : (".wav" : String).data ≠ [] := by decide
  have hsplit1 : ("_textured" : String).data ++ (".wav" : String).data =
      ("_" : String).data ++ (("textured" : String).data ++ (".wav" : String).data) := by decide
  have hdata : (mkPath d b "textured").data =
      (d.data ++ ("/".data ++ (b.data ++ "_textured".data))) ++ ".wav".data := by
    rw [mkPath_data]
    simp only [List.append_assoc, hsplit1]
  have hdrop : (".wav" : String).data.dropLast = ("_textured.wa" : String).data.drop 9 := by decide
  have H' : ¬ ((".wav".data : List Char) <:+:
      ((d.data ++ ("/".data ++ (b.data ++ "_textured".data))) ++ ".wav".data.dropLast)) := by
    intro hin
    apply H
    have he : ((d.data ++ ("/".data ++ (b.data ++ "_textured".data))) ++ ".wav".data.dropLast) =
        (d.data ++ ("/".data ++ (b.data ++ "_textured.wa".data))) := by
      have : ("_textured" : String).data ++ (".wav" : String).data.dropLast =
          ("_textured.wa" : String).data := by decide
      simp only [List.append_assoc, this]
    rwa [he] at hin
  unfold rainMixPath pyReplace
  rw [hdata]
  rw [replaceAux_suffix _ hpat _ H' _ (le_refl _)]
  apply asString_eq
  rw [mkPath_data]
  have : ("_textured" : String).data ++ ("_rain.wav" : String).data =
      ("_" : String).data ++ (("textured_rain" : String).data ++ (".wav" : String).data) := by
    decide
  simp only [List.append_assoc, this]

lemma mkPath_tag_ne (d b : String) {t1 t2 : String}
    (h : t1.data ++ (".wav" : String).data ≠ t2.data ++ (".wav" : String).data) :
    mkPath d b t1 ≠ mkPath d b t2 := by
  intro he
  apply h
  have hd := congrArg String.data he
  rw [mkPath_data, mkPath_data] at hd
  exact List.append_cancel_left (List.append_cancel_left
    (List.append_cancel_left (List.append_cancel_left hd)))

/-- C5 counterexample: with base name `a.wav` (the stem of an input named
`a.wav.mp3`), the rain-mixed intermediate path allocated by the noise stage is
`d/a_rain.wav_textured_rain.wav` — Python's `str.replace` replaces every
occurrence of `.wav` — which does not have the claimed form
`D/B_<stageTag>.<ext>` for any tag and extension. -/
theorem c5_counterexample_rain_path_form :
    ¬ ∃ tag ext : String,
      rainMixPath (mkPath "d" "a.wav" "textured") =
        "d" ++ "/" ++ "a.wav" ++ "_" ++ tag ++ "." ++ ext := by
  rintro ⟨tag, ext, hEq⟩
  have hL : (rainMixPath (mkPath "d" "a.wav" "textured")).data =
      ("d/a_rain.wav_textured_rain.wav" : String).data := by decide
  have hd := congrArg String.data hEq
  rw [hL] at hd
  simp only [String.data_append, List.append_assoc] at hd
  simp only [List.cons_append, List.nil_append] at hd
  injection hd with h1 hd
  injection hd with h2 hd
  injection hd with h3 hd
  injection hd with h4 hd
  exact absurd h4 (by decide)

/-- C5 amended: provided `.wav` occurs in `D/B_textured.wav` only as its
trailing extension (in particular whenever neither `D` nor `B` contains
`.wav`), every intermediate artifact path allocated during a run has the
deterministic form `D/B_<stageTag>.wav` with the five pairwise-distinct stage
tags tempo, pitch, textured, final, textured_rain: the rain-mix path equals
`D/B_textured_rain.wav`, the five paths are pairwise distinct, and every
engine invocation of a run writes only to those paths or to the caller's
output path.  The paths are functions of `D` and `B` alone, so two runs on
the same base name and working directory allocate identical paths. -/
theorem c5_amended_paths :
    ∀ (d b : String),
      ¬ ((".wav".data : List Char) <:+:
        (d.data ++ ("/".data ++ (b.data ++ "_textured.wa".data)))) →
      rainMixPath (mkPath d b "textured") = mkPath d b "textured_rain" ∧
      List.Pairwise (fun a b => a ≠ b)
        [mkPath d b "tempo", mkPath d b "pitch", mkPath d b "textured",
         mkPath d b "final", mkPath d b "textured_rain"] ∧
      (∀ (eng : Nat → Bool) (input output : String) (tempo pitch : ℚ)
         (rfo vfo : Option String) (rv vv : ℚ) (lc : Option ℤ)
         (ucf skip keep : Bool) (st : St) (r : Bool × Option String) (st' : St),
        process_single_file eng input output tempo pitch rfo vfo rv vv lc
          ucf skip keep b d st = some (r, st') →
        ∃ lo, st'.ops = st.ops ++ lo ∧
          lo ⊆ [mkPath d b "tempo", mkPath d b "pitch", mkPath d b "textured_rain",
                mkPath d b "textured", mkPath d b "final", output]) := by
  intro d b H
  have hrain := rainMixPath_textured d b H
  refine ⟨hrain, ?_, ?_⟩
  · refine List.pairwise_cons.mpr ⟨?_, List.pairwise_cons.mpr ⟨?_,
      List.pairwise_cons.mpr ⟨?_, List.pairwise_cons.mpr ⟨?_,
        List.pairwise_singleton _ _⟩⟩⟩⟩
    · intro x hx
      simp only [List.mem_cons, List.not_mem_nil, or_false] at hx
      rcases hx with rfl | rfl | rfl | rfl <;> exact mkPath_tag_ne d b (by decide)
    · intro x hx
      simp only [List.mem_cons, List.not_mem_nil, or_false] at hx
      rcases hx with rfl | rfl | rfl <;> exact mkPath_tag_ne d b (by decide)
    · intro x hx
      simp only [List.mem_cons, List.not_mem_nil, or_false] at hx
      rcases hx with rfl | rfl <;> exact mkPath_tag_ne d b (by decide)
    · intro x hx
      simp only [List.mem_cons, List.not_mem_nil, List.mem_singleton, or_false] at hx
      subst hx
      exact mkPath_tag_ne d b (by decide)
  · intro eng input output tempo pitch rfo vfo rv vv lc ucf skip keep st r st' h
    obtain ⟨_, _, lo, hops, hlo⟩ := process_single_file_spec h
    refine ⟨lo, hops, ?_⟩
    intro x hx
    have := hlo hx
    rw [hrain] at this
    simp only [List.mem_cons, List.not_mem_nil, or_false] at this ⊢
    tauto

/-- Witness for `c5_amended_paths` at `D = "d"`, `B = "song"`. -/
theorem c5_amended_paths_witness :
    (¬ ((".wav".data : List Char) <:+:
      (("d" : String).data ++ ("/".data ++ (("song" : String).data ++ "_textured.wa".data))))) ∧
    (rainMixPath (mkPath "d" "song" "textured") = mkPath "d" "song" "textured_rain" ∧
     List.Pairwise (fun a b => a ≠ b)
       [mkPath "d" "song" "tempo", mkPath "d" "song" "pitch", mkPath "d" "song" "textured",
        mkPath "d" "song" "final", mkPath "d" "song" "textured_rain"] ∧
     (∀ (eng : Nat → Bool) (input output : String) (tempo pitch : ℚ)
        (rfo vfo : Option String) (rv vv : ℚ) (lc : Option ℤ)
        (ucf skip keep : Bool) (st : St) (r : Bool × Option String) (st' : St),
       process_single_file eng input output tempo pitch rfo vfo rv vv lc
         ucf skip keep "song" "d" st = some (r, st') →
       ∃ lo, st'.ops = st.ops ++ lo ∧
         lo ⊆ [mkPath "d" "song" "tempo", mkPath "d" "song" "pitch",
               mkPath "d" "song" "textured_rain", mkPath "d" "song" "textured",
               mkPath "d" "song" "final", output])) :=
  ⟨by decide, c5_amended_paths "d" "song" (by decide)⟩

lemma pipelineFinish_noLoop_spec {eng : Nat → Bool} {output : String} {lc : Option ℤ}
    {ucf keep : Bool} {ff : String} {files : List String} {st : St}
    {r : Bool × Option String} {st' : St}
    (hlt : loopTruthy lc = false) (hne : ff ≠ output)
    (h : pipelineFinish eng output lc ucf keep ff files st = some (r, st')) :
    r = (true, some output) ∧
    ∃ c, getFile st.fs ff = some c ∧
      st' = cleanup_intermediate_files keep (files.erase ff)
        { st with fs := setFile (removeFile st.fs ff) output c } := by
  simp only [pipelineFinish] at h
  rw [hlt] at h
  rw [if_neg (by decide : ¬ ((false : Bool) = true))] at h
  rw [if_pos hne] at h
  rcases hrn : renameFile st.fs ff output with _ | fs5
  · rw [hrn] at h
    exact absurd h (by simp)
  · rw [hrn] at h
    simp only [Option.map_some'] at h
    injection h with h1
    injection h1 with hr hst
    subst hr
    obtain ⟨c, hc, hfs5⟩ := renameFile_some hrn
    subst hfs5
    exact ⟨rfl, c, hc, hst.symm⟩

lemma pipelineEqStage_frame {eng : Nat → Bool} {skip : Bool} {base wd : String}
    {st3 : St} {ok : Bool} {ff : String} {files : List String} {st4 : St}
    (h : pipelineEqStage eng skip base wd st3 = (ok, ff, files, st4)) :
    (ff = mkPath wd base "textured" ∨ ff = mkPath wd base "final") ∧
    files ⊆ [mkPath wd base "tempo", mkPath wd base "pitch",
             mkPath wd base "textured", mkPath wd base "final"] ∧
    st4.stages = st3.stages ++ (if skip then [] else ["eq"]) ∧
    st4.removed = st3.removed ∧
    (∀ q, q ≠ mkPath wd base "final" → getFile st4.fs q = getFile st3.fs q) := by
  rcases skip with _ | _
  · simp only [pipelineEqStage, Bool.false_eq_true, if_false] at h
    rcases hb : eng st3.calls with _ | _
    · rw [step4_eq, hb] at h
      injection h with h1 h2
      injection h2 with h3 h4
      injection h4 with h5 h6
      subst h3
      subst h5
      subst h6
      refine ⟨Or.inr rfl, ?_, by simp, by simp, ?_⟩
      · intro x hx
        simp only [List.mem_cons, List.not_mem_nil, or_false] at hx ⊢
        tauto
      · intro q hq
        simp
    · rw [step4_eq, hb] at h
      injection h with h1 h2
      injection h2 with h3 h4
      injection h4 with h5 h6
      subst h3
      subst h5
      subst h6
      refine ⟨Or.inr rfl, ?_, by simp, by simp, ?_⟩
      · intro x hx
        simp only [List.mem_append, List.mem_cons, List.not_mem_nil, or_false,
          List.mem_singleton] at hx ⊢
        tauto
      · intro q hq
        simp [getFile_setFile, hq]
  · simp only [pipelineEqStage, if_true] at h
    injection h with h1 h2
    injection h2 with h3 h4
    injection h4 with h5 h6
    subst h3
    subst h5
    subst h6
    refine ⟨Or.inl rfl, ?_, by simp, by simp, fun q hq => rfl⟩
    intro x hx
    simp only [List.mem_cons, List.not_mem_nil, or_false] at hx ⊢
    tauto

/-- C6: in a run with the skip-EQ flag set and no loop requested that
succeeds, the final output file is the very same artifact the noise stage
produced: the content at the output path is exactly the content the noise
stage left at the textured path (moved there by rename — the textured path no
longer exists), and no engine invocation (hence no copy and no re-encode)
happens between the noise stage and the final output (`st'.calls =
st3.calls`). -/
theorem c6_skip_eq_same_artifact :
    ∀ (eng : Nat → Bool) (input output : String) (tempo pitch : ℚ)
      (rfo vfo : Option String) (rv vv : ℚ) (lc : Option ℤ) (ucf keep : Bool)
      (base wd : String) (st : St) (r : Bool × Option String) (st' : St),
      loopTruthy lc = false →
      output ∉ [mkPath wd base "tempo", mkPath wd base "pitch",
                mkPath wd base "textured"] →
      process_single_file eng input output tempo pitch rfo vfo rv vv lc
        ucf true keep base wd st = some (r, st') →
      r.1 = true →
      r.2 = some output ∧
      ∃ st3 c,
        pipelineStages123 eng input tempo pitch rfo vfo rv vv base wd st =
          some (true, st3) ∧
        getFile st3.fs (mkPath wd base "textured") = some c ∧
        getFile st'.fs output = some c ∧
        st'.calls = st3.calls ∧
        getFile st'.fs (mkPath wd base "textured") = none := by
  intro eng input output tempo pitch rfo vfo rv vv lc ucf keep base wd st r st'
    hlt hout hrun hr
  simp only [process_single_file] at hrun
  split at hrun
  · exact absurd hrun (by simp)
  · rename_i st3 heq
    injection hrun with h1
    injection h1 with hr2 hst
    subst hr2
    simp at hr
  · rename_i st3 heq
    have heqs : pipelineEqStage eng true base wd st3 =
        (true, mkPath wd base "textured",
         [mkPath wd base "tempo", mkPath wd base "pitch", mkPath wd base "textured"],
         st3) := by
      simp [pipelineEqStage]
    rw [heqs] at hrun
    have hxmem : mkPath wd base "textured" ∈
        [mkPath wd base "tempo", mkPath wd base "pitch", mkPath wd base "textured"] := by
      simp
    have hne : mkPath wd base "textured" ≠ output := fun hh => hout (hh ▸ hxmem)
    obtain ⟨hr2, c, hc, hst'⟩ := pipelineFinish_noLoop_spec hlt hne hrun
    subst hst'
    have hxt : ¬((mkPath wd base "tempo" == mkPath wd base "textured") = true) := by
      simp only [beq_iff_eq]
      exact mkPath_tag_ne wd base (by decide)
    have hxp : ¬((mkPath wd base "pitch" == mkPath wd base "textured") = true) := by
      simp only [beq_iff_eq]
      exact mkPath_tag_ne wd base (by decide)
    have hE : [mkPath wd base "tempo", mkPath wd base "pitch",
        mkPath wd base "textured"].erase (mkPath wd base "textured") =
        [mkPath wd base "tempo", mkPath wd base "pitch"] := by
      rw [List.erase_cons_tail hxt, List.erase_cons_tail hxp, List.erase_cons_head]
    rw [hE]
    have houtn : output ∉ [mkPath wd base "tempo", mkPath wd base "pitch"] := by
      intro hm
      apply hout
      simp only [List.mem_cons, List.not_mem_nil, or_false] at hm ⊢
      tauto
    have hxn : mkPath wd base "textured" ∉
        [mkPath wd base "tempo", mkPath wd base "pitch"] := by
      simp only [List.mem_cons, List.not_mem_nil, or_false]
      rintro (hm | hm)
      · exact (mkPath_tag_ne wd base (by decide)) hm.symm
      · exact (mkPath_tag_ne wd base (by decide)) hm.symm
    refine ⟨by rw [hr2], st3, c, heq, hc, ?_, ?_, ?_⟩
    · rw [cleanup_getFile _ houtn]
      simp [getFile_setFile]
    · simp [cleanup_calls]
    · rw [cleanup_getFile _ hxn]
      rw [getFile_setFile]
      rw [if_neg hne]
      rw [getFile_removeFile]
      simp

/-- C7: in a successful run whose loop count is absent or zero, the loop
stage is skipped (the `loop` stage function is never entered and no engine
call happens after the EQ phase), and the prior stage's output file is
renamed directly onto the final output path, where it survives cleanup
(its exact content sits at the output path when the run returns). -/
theorem c7_no_loop_renames_final :
    ∀ (eng : Nat → Bool) (input output : String) (tempo pitch : ℚ)
      (rfo vfo : Option String) (rv vv : ℚ) (lc : Option ℤ)
      (ucf skip keep : Bool) (base wd : String) (st : St)
      (r : Bool × Option String) (st' : St),
      loopTruthy lc = false →
      output ∉ [mkPath wd base "tempo", mkPath wd base "pitch",
                mkPath wd base "textured", mkPath wd base "final"] →
      process_single_file eng input output tempo pitch rfo vfo rv vv lc
        ucf skip keep base wd st = some (r, st') →
      r.1 = true →
      r.2 = some output ∧
      (∃ st3 ff files st4 c,
        pipelineStages123 eng input tempo pitch rfo vfo rv vv base wd st =
          some (true, st3) ∧
        pipelineEqStage eng skip base wd st3 = (true, ff, files, st4) ∧
        getFile st4.fs ff = some c ∧
        getFile st'.fs output = some c ∧
        st'.calls = st4.calls) ∧
      (∃ ls, st'.stages = st.stages ++ ls ∧ "loop" ∉ ls) := by
  intro eng input output tempo pitch rfo vfo rv vv lc ucf skip keep base wd st r st'
    hlt hout hrun hr
  simp only [process_single_file] at hrun
  split at hrun
  · exact absurd hrun (by simp)
  · rename_i st3 heq
    injection hrun with h1
    injection h1 with hr2 hst
    subst hr2
    simp at hr
  · rename_i st3 heq
    obtain ⟨hrm3, ⟨l3, hl3, _, hlc3⟩, _⟩ := pipelineStages123_spec heq
    have hl3' : l3 = ["tempo", "pitch", "noise"] := hlc3 rfl
    subst hl3'
    split at hrun
    · rename_i ff0 files0 st4 heq4
      injection hrun with h1
      injection h1 with hr2 hst
      subst hr2
      simp at hr
    · rename_i ff files st4 heq4
      obtain ⟨hff, hfiles, hst4, _, _⟩ := pipelineEqStage_frame heq4
      have hffmem : ff ∈ [mkPath wd base "tempo", mkPath wd base "pitch",
          mkPath wd base "textured", mkPath wd base "final"] := by
        rcases hff with rfl | rfl <;> simp
      have hne : ff ≠ output := fun hh => hout (hh ▸ hffmem)
      obtain ⟨hr2, c, hc, hst'⟩ := pipelineFinish_noLoop_spec hlt hne hrun
      subst hst'
      have houte : output ∉ files.erase ff := by
        intro hm
        exact hout (hfiles (List.erase_subset _ _ hm))
      refine ⟨by rw [hr2], ⟨st3, ff, files, st4, c, heq, heq4, hc, ?_, ?_⟩, ?_⟩
      · rw [cleanup_getFile _ houte]
        simp [getFile_setFile]
      · simp [cleanup_calls]
      · refine ⟨["tempo", "pitch", "noise"] ++ (if skip then [] else ["eq"]), ?_, ?_⟩
        · rw [cleanup_stages]
          show St.stages _ = _
          simp only [hst4, hl3, List.append_assoc]
        · rcases skip with _ | _ <;> decide

/-- Witness for `c6_skip_eq_same_artifact`: a concrete skip-EQ, no-loop run;
the final output holds exactly the content the noise stage wrote at the
textured path, which is gone after the rename. -/
theorem c6_skip_eq_same_artifact_witness :
    (loopTruthy none = false ∧
     "out.wav" ∉ [mkPath "d" "b" "tempo", mkPath "d" "b" "pitch",
                  mkPath "d" "b" "textured"] ∧
     process_single_file (fun _ => true) "in.wav" "out.wav" (Rat.mk' 39 40)
       (Rat.mk' 99 100) none none (Rat.mk' 1 20) (Rat.mk' 3 100) none true true false
       "b" "d" st_init =
       some ((true, some "out.wav"),
      ⟨[("out.wav", Content.copyOf (Content.pitch (Content.tempo (Content.orig "s")
            (Rat.mk' 39 40)) (Rat.mk' 99 100))), ("in.wav", Content.orig "s")],
       3, [], ["tempo", "pitch", "noise"], ["d/b_tempo.wav", "d/b_pitch.wav"],
       ["d/b_tempo.wav", "d/b_pitch.wav", "d/b_textured.wav"]⟩) ∧
     ((true, some "out.wav") : Bool × Option String).1 = true) ∧
    (((true, some "out.wav") : Bool × Option String).2 = some "out.wav" ∧
     ∃ st3 c,
       pipelineStages123 (fun _ => true) "in.wav" (Rat.mk' 39 40) (Rat.mk' 99 100)
         none none (Rat.mk' 1 20) (Rat.mk' 3 100) "b" "d" st_init = some (true, st3) ∧
       getFile st3.fs (mkPath "d" "b" "textured") = some c ∧
       getFile (⟨[("out.wav", Content.copyOf (Content.pitch (Content.tempo (Content.orig "s")
            (Rat.mk' 39 40)) (Rat.mk' 99 100))), ("in.wav", Content.orig "s")],
       3, [], ["tempo", "pitch", "noise"], ["d/b_tempo.wav", "d/b_pitch.wav"],
       ["d/b_tempo.wav", "d/b_pitch.wav", "d/b_textured.wav"]⟩ : St).fs "out.wav" = some c ∧
       (⟨[("out.wav", Content.copyOf (Content.pitch (Content.tempo (Content.orig "s")
            (Rat.mk' 39 40)) (Rat.mk' 99 100))), ("in.wav", Content.orig "s")],
       3, [], ["tempo", "pitch", "noise"], ["d/b_tempo.wav", "d/b_pitch.wav"],
       ["d/b_tempo.wav", "d/b_pitch.wav", "d/b_textured.wav"]⟩ : St).calls = st3.calls ∧
       getFile (⟨[("out.wav", Content.copyOf (Content.pitch (Content.tempo (Content.orig "s")
            (Rat.mk' 39 40)) (Rat.mk' 99 100))), ("in.wav", Content.orig "s")],
       3, [], ["tempo", "pitch", "noise"], ["d/b_tempo.wav", "d/b_pitch.wav"],
       ["d/b_tempo.wav", "d/b_pitch.wav", "d/b_textured.wav"]⟩ : St).fs (mkPath "d" "b" "textured") = none) :=
  ⟨⟨by decide, by decide, by decide, rfl⟩,
    c6_skip_eq_same_artifact (fun _ => true) "in.wav" "out.wav" (Rat.mk' 39 40)
      (Rat.mk' 99 100) none none (Rat.mk' 1 20) (Rat.mk' 3 100) none true false
      "b" "d" st_init ((true, some "out.wav")) _ (by decide) (by decide) (by decide) rfl⟩

/-- Witness for `c7_no_loop_renames_final`: a concrete run with EQ and no
loop; the loop stage is never entered and the EQ output is renamed onto the
output path and survives cleanup. -/
theorem c7_no_loop_renames_final_witness :
    (loopTruthy none = false ∧
     "out.wav" ∉ [mkPath "d" "b" "tempo", mkPath "d" "b" "pitch",
                  mkPath "d" "b" "textured", mkPath "d" "b" "final"] ∧
     process_single_file (fun _ => true) "in.wav" "out.wav" (Rat.mk' 39 40)
       (Rat.mk' 99 100) none none (Rat.mk' 1 20) (Rat.mk' 3 100) none true false false
       "b" "d" st_init =
       some ((true, some "out.wav"),
      ⟨[("out.wav", Content.eqFilter (Content.copyOf (Content.pitch
            (Content.tempo (Content.orig "s") (Rat.mk' 39 40)) (Rat.mk' 99 100)))),
         ("in.wav", Content.orig "s")],
       4, [], ["tempo", "pitch", "noise", "eq"],
       ["d/b_tempo.wav", "d/b_pitch.wav", "d/b_textured.wav"],
       ["d/b_tempo.wav", "d/b_pitch.wav", "d/b_textured.wav", "d/b_final.wav"]⟩) ∧
     ((true, some "out.wav") : Bool × Option String).1 = true) ∧
    (((true, some "out.wav") : Bool × Option String).2 = some "out.wav" ∧
     (∃ st3 ff files st4 c,
       pipelineStages123 (fun _ => true) "in.wav" (Rat.mk' 39 40) (Rat.mk' 99 100)
         none none (Rat.mk' 1 20) (Rat.mk' 3 100) "b" "d" st_init = some (true, st3) ∧
       pipelineEqStage (fun _ => true) false "b" "d" st3 = (true, ff, files, st4) ∧
       getFile st4.fs ff = some c ∧
       getFile (⟨[("out.wav", Content.eqFilter (Content.copyOf (Content.pitch
            (Content.tempo (Content.orig "s") (Rat.mk' 39 40)) (Rat.mk' 99 100)))),
         ("in.wav", Content.orig "s")],
       4, [], ["tempo", "pitch", "noise", "eq"],
       ["d/b_tempo.wav", "d/b_pitch.wav", "d/b_textured.wav"],
       ["d/b_tempo.wav", "d/b_pitch.wav", "d/b_textured.wav", "d/b_final.wav"]⟩ : St).fs "out.wav" = some c ∧
       (⟨[("out.wav", Content.eqFilter (Content.copyOf (Content.pitch
            (Content.tempo (Content.orig "s") (Rat.mk' 39 40)) (Rat.mk' 99 100)))),
         ("in.wav", Content.orig "s")],
       4, [], ["tempo", "pitch", "noise", "eq"],
       ["d/b_tempo.wav", "d/b_pitch.wav", "d/b_textured.wav"],
       ["d/b_tempo.wav", "d/b_pitch.wav", "d/b_textured.wav", "d/b_final.wav"]⟩ : St).calls = st4.calls) ∧
     (∃ ls, (⟨[("out.wav", Content.eqFilter (Content.copyOf (Content.pitch
            (Content.tempo (Content.orig "s") (Rat.mk' 39 40)) (Rat.mk' 99 100)))),
         ("in.wav", Content.orig "s")],
       4, [], ["tempo", "pitch", "noise", "eq"],
       ["d/b_tempo.wav", "d/b_pitch.wav", "d/b_textured.wav"],
       ["d/b_tempo.wav", "d/b_pitch.wav", "d/b_textured.wav", "d/b_final.wav"]⟩ : St).stages = st_init.stages ++ ls ∧ "loop" ∉ ls)) :=
  ⟨⟨by decide, by decide, by decide, rfl⟩,
    c7_no_loop_renames_final (fun _ => true) "in.wav" "out.wav" (Rat.mk' 39 40)
      (Rat.mk' 99 100) none none (Rat.mk' 1 20) (Rat.mk' 3 100) none true false false
      "b" "d" st_init ((true, some "out.wav")) _ (by decide) (by decide) (by decide) rfl⟩

lemma getFile_setFile_isSome {fs : FS} {q : String} (p : String) (c : Content)
    (h : getFile fs q ≠ none) : getFile (setFile fs p c) q ≠ none := by
  rw [getFile_setFile]
  split
  · simp
  · exact h

lemma step1_fs_exists (eng : Nat → Bool) (i o : String) (t : ℚ) (st : St)
    {q : String} (h : getFile st.fs q ≠ none) :
    getFile (step1_change_tempo eng i o t st).2.fs q ≠ none := by
  rw [step1_eq]
  show getFile (if eng st.calls = true then _ else st.fs) q ≠ none
  split
  · exact getFile_setFile_isSome _ _ h
  · exact h

lemma step2_fs_exists (eng : Nat → Bool) (i o : String) (t : ℚ) (st : St)
    {q : String} (h : getFile st.fs q ≠ none) :
    getFile (step2_change_pitch eng i o t st).2.fs q ≠ none := by
  rw [step2_eq]
  show getFile (if eng st.calls = true then _ else st.fs) q ≠ none
  split
  · exact getFile_setFile_isSome _ _ h
  · exact h

lemma step3_both_exist_rain {eng : Nat → Bool} {i o : String} {rf vf : String}
    {rv vv : ℚ} {st : St} {st3 : St}
    (hrf : getFile st.fs rf ≠ none) (hvf : getFile st.fs vf ≠ none)
    (hrx : rainMixPath o ≠ o)
    (h : step3_add_noise eng i o (some rf) (some vf) rv vv st = some (true, st3)) :
    getFile st3.fs (rainMixPath o) ≠ none := by
  simp only [step3_add_noise, step3_rain_phase] at h
  rw [if_pos (by simpa [Option.isSome_iff_ne_none] using hrf)] at h
  rcases hbr : eng st.calls with _ | _
  · simp [run_ffmpeg_eq, hbr] at h
  · simp only [run_ffmpeg_eq, hbr] at h
    simp only [step3_vinyl_phase, if_true] at h
    rw [if_pos (by
      simp only [Option.isSome_iff_ne_none]
      exact getFile_setFile_isSome _ _ hvf)] at h
    simp only [run_ffmpeg_eq] at h
    injection h with h1
    injection h1 with hb2 hst3
    subst hst3
    simp [hb2, getFile_setFile, hrx]

lemma pipelineStages123_rain_written {eng : Nat → Bool} {input : String}
    {tempo pitch : ℚ} {rf vf : String} {rv vv : ℚ} {base wd : String}
    {st : St} {st3 : St}
    (hrf : getFile st.fs rf ≠ none) (hvf : getFile st.fs vf ≠ none)
    (hrx : rainMixPath (mkPath wd base "textured") ≠ mkPath wd base "textured")
    (h : pipelineStages123 eng input tempo pitch (some rf) (some vf) rv vv base wd st =
      some (true, st3)) :
    getFile st3.fs (rainMixPath (mkPath wd base "textured")) ≠ none := by
  simp only [pipelineStages123] at h
  split at h
  · simp at h
  · rename_i st1 heq1
    have hrf1 : getFile st1.fs rf ≠ none := by
      have := step1_fs_exists eng input (mkPath wd base "tempo") tempo st hrf
      rwa [heq1] at this
    have hvf1 : getFile st1.fs vf ≠ none := by
      have := step1_fs_exists eng input (mkPath wd base "tempo") tempo st hvf
      rwa [heq1] at this
    split at h
    · simp at h
    · rename_i st2 heq2
      have hrf2 : getFile st2.fs rf ≠ none := by
        have := step2_fs_exists eng (mkPath wd base "tempo") (mkPath wd base "pitch")
          pitch st1 hrf1
        rwa [heq2] at this
      have hvf2 : getFile st2.fs vf ≠ none := by
        have := step2_fs_exists eng (mkPath wd base "tempo") (mkPath wd base "pitch")
          pitch st1 hvf1
        rwa [heq2] at this
      exact step3_both_exist_rain hrf2 hvf2 hrx h

lemma cleanupFold_removed_mem {files : List String} {st : St} {q : String}
    (h : q ∈ ((files.foldl
      (fun s p =>
        if (getFile s.fs p).isSome then
          { s with fs := removeFile s.fs p, removed := s.removed ++ [p] }
        else s)
      st)).removed) :
    q ∈ st.removed ∨ q ∈ files := by
  induction files generalizing st with
  | nil => exact Or.inl (by simpa using h)
  | cons p rest ih =>
    simp only [List.foldl_cons] at h
    rcases ih h with hm | hm
    · by_cases hp : (getFile st.fs p).isSome
      · rw [if_pos hp] at hm
        simp only [List.mem_append, List.mem_singleton] at hm
        rcases hm with hm | rfl
        · exact Or.inl hm
        · exact Or.inr (by simp)
      · rw [if_neg hp] at hm
        exact Or.inl hm
    · exact Or.inr (by simp [hm])

lemma cleanup_removed_mem {k : Bool} {files : List String} {st : St} {q : String}
    (h : q ∈ (cleanup_intermediate_files k files st).removed) :
    q ∈ st.removed ∨ q ∈ files := by
  unfold cleanup_intermediate_files at h
  split at h
  · exact Or.inl h
  · exact cleanupFold_removed_mem h

lemma pipelineFinish_preserved {eng : Nat → Bool} {output : String} {lc : Option ℤ}
    {ucf keep : Bool} {ff : String} {files : List String} {st : St}
    {r : Bool × Option String} {st' : St} {q : String}
    (hq1 : q ≠ output) (hq2 : q ≠ ff) (hq3 : q ∉ files)
    (h : pipelineFinish eng output lc ucf keep ff files st = some (r, st')) :
    getFile st'.fs q = getFile st.fs q ∧
    (q ∈ st'.removed → q ∈ st.removed) := by
  simp only [pipelineFinish] at h
  split at h
  · split at h
    · rename_i st5 heq5
      rw [step5_eq] at heq5
      injection heq5 with hb hrec
      injection h with h1
      injection h1 with hr2 hst
      subst hst
      subst hrec
      constructor
      · simp [hb]
      · exact fun hm => hm
    · rename_i st5 heq5
      rw [step5_eq] at heq5
      injection heq5 with hb hrec
      injection h with h1
      injection h1 with hr2 hst
      subst hst
      subst hrec
      constructor
      · rw [cleanup_getFile _ hq3]
        simp [hb, getFile_setFile, hq1]
      · intro hm
        rcases cleanup_removed_mem hm with hm2 | hm2
        · exact hm2
        · exact absurd hm2 hq3
  · split at h
    · exact absurd h (by simp)
    · rename_i st5 heq5
      injection h with h1
      injection h1 with hr2 hst
      subst hst
      have hq3' : q ∉ files.erase ff := fun hm => hq3 (List.erase_subset _ _ hm)
      have hst5 : getFile st5.fs q = getFile st.fs q ∧ st5.removed = st.removed := by
        split at heq5
        · obtain ⟨fs5, hfs5, hst5⟩ := Option.map_eq_some'.mp heq5
          obtain ⟨c, hc, hfs5e⟩ := renameFile_some hfs5
          subst hst5
          subst hfs5e
          constructor
          · show getFile (setFile _ output c) q = _
            rw [getFile_setFile, if_neg hq1, getFile_removeFile, if_neg hq2]
          · rfl
        · injection heq5 with h2
          subst h2
          exact ⟨rfl, rfl⟩
      constructor
      · rw [cleanup_getFile _ hq3', hst5.1]
      · intro hm
        rcases cleanup_removed_mem hm with hm2 | hm2
        · rwa [hst5.2] at hm2
        · exact absurd hm2 hq3'

/-- C9: when both the rain and the vinyl asset files exist, the rain-mixed
intermediate (`rainMixPath` of the textured target) written by the noise
stage is never removed by the run: after a successful run without retention
it is still on disk, and it never enters the set of files that
`cleanup_intermediate_files` removed (it is not recorded in the run's
intermediate-file list). -/
theorem c9_rain_intermediate_survives :
    ∀ (eng : Nat → Bool) (input output : String) (tempo pitch : ℚ)
      (rf vf : String) (rv vv : ℚ) (lc : Option ℤ) (ucf skip : Bool)
      (base wd : String) (st : St) (r : Bool × Option String) (st' : St),
      getFile st.fs rf ≠ none →
      getFile st.fs vf ≠ none →
      rainMixPath (mkPath wd base "textured") ∉
        [mkPath wd base "tempo", mkPath wd base "pitch", mkPath wd base "textured",
         mkPath wd base "final", output] →
      process_single_file eng input output tempo pitch (some rf) (some vf) rv vv lc
        ucf skip false base wd st = some (r, st') →
      r.1 = true →
      getFile st'.fs (rainMixPath (mkPath wd base "textured")) ≠ none ∧
      (rainMixPath (mkPath wd base "textured") ∈ st'.removed →
        rainMixPath (mkPath wd base "textured") ∈ st.removed) := by
  intro eng input output tempo pitch rf vf rv vv lc ucf skip base wd st r st'
    hrf hvf hnin hrun hr
  simp only [List.mem_cons, List.not_mem_nil, or_false, not_or] at hnin
  obtain ⟨hnt, hnp, hrx, hnf, hro⟩ := hnin
  simp only [process_single_file] at hrun
  split at hrun
  · exact absurd hrun (by simp)
  · rename_i st3 heq
    injection hrun with h1
    injection h1 with hr2 hst
    subst hr2
    simp at hr
  · rename_i st3 heq
    have hrw := pipelineStages123_rain_written hrf hvf hrx heq
    obtain ⟨hrm3, _, _⟩ := pipelineStages123_spec heq
    split at hrun
    · rename_i ff0 files0 st4 heq4
      injection hrun with h1
      injection h1 with hr2 hst
      subst hr2
      simp at hr
    · rename_i ff files st4 heq4
      obtain ⟨hff, hfiles, _, hrm4, hfs4⟩ := pipelineEqStage_frame heq4
      have hrw4 : getFile st4.fs (rainMixPath (mkPath wd base "textured")) ≠ none := by
        rw [hfs4 _ hnf]
        exact hrw
      have hneff : rainMixPath (mkPath wd base "textured") ≠ ff := by
        rcases hff with rfl | rfl
        · exact hrx
        · exact hnf
      have hnfiles : rainMixPath (mkPath wd base "textured") ∉ files := by
        intro hm
        have := hfiles hm
        simp only [List.mem_cons, List.not_mem_nil, or_false] at this
        tauto
      obtain ⟨hfs', hremoved'⟩ := pipelineFinish_preserved hro hneff hnfiles hrun
      constructor
      · rw [hfs']
        exact hrw4
      · intro hm
        have h2 := hremoved' hm
        rw [hrm4, hrm3] at h2
        exact h2

/-- Witness for `c9_rain_intermediate_survives`: a concrete successful run in
which both noise assets exist; the rain-mixed file `d/b_textured_rain.wav` is
still on disk afterwards even though retention was not requested. -/
theorem c9_rain_intermediate_survives_witness :
    (getFile (⟨[("in.wav", Content.orig "s"), ("rain.wav", Content.orig "r"),
        ("vinyl.wav", Content.orig "v")], 0, [], [], [], []⟩ : St).fs "rain.wav" ≠ none ∧
     getFile (⟨[("in.wav", Content.orig "s"), ("rain.wav", Content.orig "r"),
        ("vinyl.wav", Content.orig "v")], 0, [], [], [], []⟩ : St).fs "vinyl.wav" ≠ none ∧
     rainMixPath (mkPath "d" "b" "textured") ∉
       [mkPath "d" "b" "tempo", mkPath "d" "b" "pitch", mkPath "d" "b" "textured",
        mkPath "d" "b" "final", "out.wav"] ∧
     process_single_file (fun _ => true) "in.wav" "out.wav" (Rat.mk' 39 40)
       (Rat.mk' 99 100) (some "rain.wav") (some "vinyl.wav") (Rat.mk' 1 20)
       (Rat.mk' 3 100) none true true false "b" "d"
       ⟨[("in.wav", Content.orig "s"), ("rain.wav", Content.orig "r"),
        ("vinyl.wav", Content.orig "v")], 0, [], [], [], []⟩ =
       some ((true, some "out.wav"),
      ⟨[("out.wav", Content.amix (Content.amix (Content.pitch (Content.tempo
            (Content.orig "s") (Rat.mk' 39 40)) (Rat.mk' 99 100)) (Content.orig "r")
            (Rat.mk' 1 20)) (Content.orig "v") (Rat.mk' 3 100)),
         ("d/b_textured_rain.wav", Content.amix (Content.pitch (Content.tempo
            (Content.orig "s") (Rat.mk' 39 40)) (Rat.mk' 99 100)) (Content.orig "r")
            (Rat.mk' 1 20)),
         ("in.wav", Content.orig "s"), ("rain.wav", Content.orig "r"),
         ("vinyl.wav", Content.orig "v")],
       4, [], ["tempo", "pitch", "noise"], ["d/b_tempo.wav", "d/b_pitch.wav"],
       ["d/b_tempo.wav", "d/b_pitch.wav", "d/b_textured_rain.wav", "d/b_textured.wav"]⟩) ∧
     ((true, some "out.wav") : Bool × Option String).1 = true) ∧
    (getFile (⟨[("out.wav", Content.amix (Content.amix (Content.pitch (Content.tempo
            (Content.orig "s") (Rat.mk' 39 40)) (Rat.mk' 99 100)) (Content.orig "r")
            (Rat.mk' 1 20)) (Content.orig "v") (Rat.mk' 3 100)),
         ("d/b_textured_rain.wav", Content.amix (Content.pitch (Content.tempo
            (Content.orig "s") (Rat.mk' 39 40)) (Rat.mk' 99 100)) (Content.orig "r")
            (Rat.mk' 1 20)),
         ("in.wav", Content.orig "s"), ("rain.wav", Content.orig "r"),
         ("vinyl.wav", Content.orig "v")],
       4, [], ["tempo", "pitch", "noise"], ["d/b_tempo.wav", "d/b_pitch.wav"],
       ["d/b_tempo.wav", "d/b_pitch.wav", "d/b_textured_rain.wav", "d/b_textured.wav"]⟩ : St).fs (rainMixPath (mkPath "d" "b" "textured")) ≠ none ∧
     (rainMixPath (mkPath "d" "b" "textured") ∈ (⟨[("out.wav", Content.amix (Content.amix (Content.pitch (Content.tempo
            (Content.orig "s") (Rat.mk' 39 40)) (Rat.mk' 99 100)) (Content.orig "r")
            (Rat.mk' 1 20)) (Content.orig "v") (Rat.mk' 3 100)),
         ("d/b_textured_rain.wav", Content.amix (Content.pitch (Content.tempo
            (Content.orig "s") (Rat.mk' 39 40)) (Rat.mk' 99 100)) (Content.orig "r")
            (Rat.mk' 1 20)),
         ("in.wav", Content.orig "s"), ("rain.wav", Content.orig "r"),
         ("vinyl.wav", Content.orig "v")],
       4, [], ["tempo", "pitch", "noise"], ["d/b_tempo.wav", "d/b_pitch.wav"],
       ["d/b_tempo.wav", "d/b_pitch.wav", "d/b_textured_rain.wav", "d/b_textured.wav"]⟩ : St).removed →
       rainMixPath (mkPath "d" "b" "textured") ∈ (⟨[("in.wav", Content.orig "s"), ("rain.wav", Content.orig "r"),
        ("vinyl.wav", Content.orig "v")], 0, [], [], [], []⟩ : St).removed)) :=
  ⟨⟨by decide, by decide, by decide, by decide, rfl⟩,
    c9_rain_intermediate_survives (fun _ => true) "in.wav" "out.wav" (Rat.mk' 39 40)
      (Rat.mk' 99 100) "rain.wav" "vinyl.wav" (Rat.mk' 1 20) (Rat.mk' 3 100) none
      true true "b" "d" ⟨[("in.wav", Content.orig "s"), ("rain.wav", Content.orig "r"),
        ("vinyl.wav", Content.orig "v")], 0, [], [], [], []⟩
      ((true, some "out.wav")) _ (by decide) (by decide) (by decide) (by decide) rfl⟩

lemma strLeb_total : ∀ (a b : List Char), strLeb a b = true ∨ strLeb b a = true := by
  intro a
  induction a with
  | nil => intro b; exact Or.inl rfl
  | cons x as ih =>
    intro b
    rcases b with _ | ⟨y, bs⟩
    · exact Or.inr rfl
    · by_cases hxy : x = y
      · subst hxy
        rcases ih bs with h | h
        · exact Or.inl (by simp [strLeb, h])
        · exact Or.inr (by simp [strLeb, h])
      · rcases lt_or_gt_of_ne hxy with h | h
        · exact Or.inl (by simp [strLeb, hxy, h])
        · exact Or.inr (by simp [strLeb, Ne.symm hxy, h])

lemma strLeb_trans : ∀ (a b c : List Char),
    strLeb a b = true → strLeb b c = true → strLeb a c = true := by
  intro a
  induction a with
  | nil => intro b c _ _; rfl
  | cons x as ih =>
    intro b c hab hbc
    rcases b with _ | ⟨y, bs⟩
    · simp [strLeb] at hab
    rcases c with _ | ⟨z, cs⟩
    · simp [strLeb] at hbc
    simp only [strLeb] at hab hbc ⊢
    by_cases hxy : x = y
    · subst hxy
      by_cases hyz : x = z
      · subst hyz
        simp at hab hbc ⊢
        exact ih bs cs hab hbc
      · simp [hyz] at hbc ⊢
        exact hbc
    · by_cases hyz : y = z
      · subst hyz
        simp [hxy] at hab ⊢
        exact hab
      · simp [hxy] at hab
        simp [hyz] at hbc
        have hxz : x < z := lt_trans hab hbc
        simp [ne_of_lt hxz, hxz]

instance : IsTotal String (fun a b => pyStrLe a b = true) :=
  ⟨fun a b => strLeb_total a.data b.data⟩

instance : IsTrans String (fun a b => pyStrLe a b = true) :=
  ⟨fun a b c => strLeb_trans a.data b.data c.data⟩

lemma batch_loop_spec {eng : Nat → Bool} {tempo pitch : ℚ} {rfo vfo : Option String}
    {rv vv : ℚ} {lc : Option ℤ} {ucf skip keep : Bool} {dir : String} :
    ∀ {files : List String} {st : St} {outs : List (String × Bool)} {cnt : Nat} {st' : St},
    batch_loop eng tempo pitch rfo vfo rv vv lc ucf skip keep dir files st =
      some (outs, cnt, st') →
    outs.map Prod.fst = files ∧ cnt = (outs.filter (fun e => e.2)).length := by
  intro files
  induction files with
  | nil =>
    intro st outs cnt st' h
    simp only [batch_loop] at h
    injection h with h1
    injection h1 with ho h2
    injection h2 with hc h3
    subst ho
    subst hc
    simp
  | cons f rest ih =>
    intro st outs cnt st' h
    simp only [batch_loop] at h
    split at h
    · exact absurd h (by simp)
    · rename_i ok osnd st1 heq
      split at h
      · exact absurd h (by simp)
      · rename_i outs2 cnt2 st2 heq2
        injection h with h1
        injection h1 with ho h2
        injection h2 with hc h3
        subst ho
        subst hc
        obtain ⟨ho2, hc2⟩ := ih heq2
        constructor
        · simp [ho2]
        · rcases ok with _ | _ <;> simp [hc2]

/-- C8: every batch run processes the matched audio files one at a time in
sorted order (the processed sequence is sorted and is a permutation of the
matched files — every file is processed, so one file's failure does not stop
the ones after it), and the reported summary string is
`"{number of successful files}/{number of matched files}"`. -/
theorem c8_batch_sorted_isolated_summary :
    ∀ (eng : Nat → Bool) (tempo pitch : ℚ) (rfo vfo : Option String) (rv vv : ℚ)
      (lc : Option ℤ) (ucf skip keep : Bool) (music_dir : String)
      (audio_files : List String) (st : St)
      (r : List (String × Bool) × Nat × String × St),
      main_batch eng tempo pitch rfo vfo rv vv lc ucf skip keep music_dir
        audio_files st = some r →
      r.1.map Prod.fst = List.insertionSort (fun a b => pyStrLe a b = true) audio_files ∧
      (r.1.map Prod.fst).Perm audio_files ∧
      List.Sorted (fun a b => pyStrLe a b = true) (r.1.map Prod.fst) ∧
      r.2.1 = (r.1.filter (fun e => e.2)).length ∧
      r.2.2.1 = toString (r.1.filter (fun e => e.2)).length ++ "/" ++
        toString audio_files.length := by
  intro eng tempo pitch rfo vfo rv vv lc ucf skip keep music_dir audio_files st r h
  simp only [main_batch] at h
  split at h
  · exact absurd h (by simp)
  · rename_i outs cnt st' heq
    injection h with h1
    subst h1
    obtain ⟨ho, hc⟩ := batch_loop_spec heq
    refine ⟨ho, ?_, ?_, hc, by rw [hc]⟩
    · rw [ho]
      exact List.perm_insertionSort _ _
    · rw [ho]
      exact List.sorted_insertionSort _ _

/-- Witness for `c8_batch_sorted_isolated_summary`: a concrete batch over two
files in which the first (in sorted order) fails and the second still gets
processed, with summary "1/2". -/
theorem c8_batch_sorted_isolated_summary_witness :
    (main_batch (fun n => n != 0) (Rat.mk' 39 40) (Rat.mk' 99 100) none none
       (Rat.mk' 1 20) (Rat.mk' 3 100) none true true false "music"
       ["music/b.mp3", "music/a.mp3"]
       ⟨[("music/a.mp3", Content.orig "a"), ("music/b.mp3", Content.orig "b")],
       0, [], [], [], []⟩ =
      some
      ([("music/a.mp3", false), ("music/b.mp3", true)], 1, "1/2",
      ⟨[("music/b_processed.wav", Content.copyOf (Content.pitch (Content.tempo
           (Content.orig "b") (Rat.mk' 39 40)) (Rat.mk' 99 100))),
        ("music/a.mp3", Content.orig "a"), ("music/b.mp3", Content.orig "b")],
       4, [], ["tempo", "tempo", "pitch", "noise"],
       ["music/b_tempo.wav", "music/b_pitch.wav"],
       ["music/a_tempo.wav", "music/b_tempo.wav", "music/b_pitch.wav",
        "music/b_textured.wav"]⟩)) ∧
    ((([("music/a.mp3", false), ("music/b.mp3", true)], 1, "1/2",
      ⟨[("music/b_processed.wav", Content.copyOf (Content.pitch (Content.tempo
           (Content.orig "b") (Rat.mk' 39 40)) (Rat.mk' 99 100))),
        ("music/a.mp3", Content.orig "a"), ("music/b.mp3", Content.orig "b")],
       4, [], ["tempo", "tempo", "pitch", "noise"],
       ["music/b_tempo.wav", "music/b_pitch.wav"],
       ["music/a_tempo.wav", "music/b_tempo.wav", "music/b_pitch.wav",
        "music/b_textured.wav"]⟩) :
        List (String × Bool) × Nat × String × St).1.map Prod.fst =
      List.insertionSort (fun a b => pyStrLe a b = true)
        ["music/b.mp3", "music/a.mp3"] ∧
     ((([("music/a.mp3", false), ("music/b.mp3", true)], 1, "1/2",
      ⟨[("music/b_processed.wav", Content.copyOf (Content.pitch (Content.tempo
           (Content.orig "b") (Rat.mk' 39 40)) (Rat.mk' 99 100))),
        ("music/a.mp3", Content.orig "a"), ("music/b.mp3", Content.orig "b")],
       4, [], ["tempo", "tempo", "pitch", "noise"],
       ["music/b_tempo.wav", "music/b_pitch.wav"],
       ["music/a_tempo.wav", "music/b_tempo.wav", "music/b_pitch.wav",
        "music/b_textured.wav"]⟩) :
        List (String × Bool) × Nat × String × St).1.map Prod.fst).Perm ["music/b.mp3", "music/a.mp3"] ∧
     List.Sorted (fun a b => pyStrLe a b = true) ((([("music/a.mp3", false), ("music/b.mp3", true)], 1, "1/2",
      ⟨[("music/b_processed.wav", Content.copyOf (Content.pitch (Content.tempo
           (Content.orig "b") (Rat.mk' 39 40)) (Rat.mk' 99 100))),
        ("music/a.mp3", Content.orig "a"), ("music/b.mp3", Content.orig "b")],
       4, [], ["tempo", "tempo", "pitch", "noise"],
       ["music/b_tempo.wav", "music/b_pitch.wav"],
       ["music/a_tempo.wav", "music/b_tempo.wav", "music/b_pitch.wav",
        "music/b_textured.wav"]⟩) :
        List (String × Bool) × Nat × String × St).1.map Prod.fst) ∧
     (([("music/a.mp3", false), ("music/b.mp3", true)], 1, "1/2",
      ⟨[("music/b_processed.wav", Content.copyOf (Content.pitch (Content.tempo
           (Content.orig "b") (Rat.mk' 39 40)) (Rat.mk' 99 100))),
        ("music/a.mp3", Content.orig "a"), ("music/b.mp3", Content.orig "b")],
       4, [], ["tempo", "tempo", "pitch", "noise"],
       ["music/b_tempo.wav", "music/b_pitch.wav"],
       ["music/a_tempo.wav", "music/b_tempo.wav", "music/b_pitch.wav",
        "music/b_textured.wav"]⟩) :
        List (String × Bool) × Nat × String × St).2.1 = (((([("music/a.mp3", false), ("music/b.mp3", true)], 1, "1/2",
      ⟨[("music/b_processed.wav", Content.copyOf (Content.pitch (Content.tempo
           (Content.orig "b") (Rat.mk' 39 40)) (Rat.mk' 99 100))),
        ("music/a.mp3", Content.orig "a"), ("music/b.mp3", Content.orig "b")],
       4, [], ["tempo", "tempo", "pitch", "noise"],
       ["music/b_tempo.wav", "music/b_pitch.wav"],
       ["music/a_tempo.wav", "music/b_tempo.wav", "music/b_pitch.wav",
        "music/b_textured.wav"]⟩) :
        List (String × Bool) × Nat × String × St).1.filter (fun e => e.2)).length) ∧
     (([("music/a.mp3", false), ("music/b.mp3", true)], 1, "1/2",
      ⟨[("music/b_processed.wav", Content.copyOf (Content.pitch (Content.tempo
           (Content.orig "b") (Rat.mk' 39 40)) (Rat.mk' 99 100))),
        ("music/a.mp3", Content.orig "a"), ("music/b.mp3", Content.orig "b")],
       4, [], ["tempo", "tempo", "pitch", "noise"],
       ["music/b_tempo.wav", "music/b_pitch.wav"],
       ["music/a_tempo.wav", "music/b_tempo.wav", "music/b_pitch.wav",
        "music/b_textured.wav"]⟩) :
        List (String × Bool) × Nat × String × St).2.2.1 =
       toString (((([("music/a.mp3", false), ("music/b.mp3", true)], 1, "1/2",
      ⟨[("music/b_processed.wav", Content.copyOf (Content.pitch (Content.tempo
           (Content.orig "b") (Rat.mk' 39 40)) (Rat.mk' 99 100))),
        ("music/a.mp3", Content.orig "a"), ("music/b.mp3", Content.orig "b")],
       4, [], ["tempo", "tempo", "pitch", "noise"],
       ["music/b_tempo.wav", "music/b_pitch.wav"],
       ["music/a_tempo.wav", "music/b_tempo.wav", "music/b_pitch.wav",
        "music/b_textured.wav"]⟩) :
        List (String × Bool) × Nat × String × St).1.filter (fun e => e.2)).length) ++ "/" ++
         toString (["music/b.mp3", "music/a.mp3"] : List String).length) :=
  ⟨by decide,
    c8_batch_sorted_isolated_summary (fun n => n != 0) (Rat.mk' 39 40) (Rat.mk' 99 100)
      none none (Rat.mk' 1 20) (Rat.mk' 3 100) none true true false "music"
      ["music/b.mp3", "music/a.mp3"]
      ⟨[("music/a.mp3", Content.orig "a"), ("music/b.mp3", Content.orig "b")],
       0, [], [], [], []⟩
      ([("music/a.mp3", false), ("music/b.mp3", true)], 1, "1/2",
      ⟨[("music/b_processed.wav", Content.copyOf (Content.pitch (Content.tempo
           (Content.orig "b") (Rat.mk' 39 40)) (Rat.mk' 99 100))),
        ("music/a.mp3", Content.orig "a"), ("music/b.mp3", Content.orig "b")],
       4, [], ["tempo", "tempo", "pitch", "noise"],
       ["music/b_tempo.wav", "music/b_pitch.wav"],
       ["music/a_tempo.wav", "music/b_tempo.wav", "music/b_pitch.wav",
        "music/b_textured.wav"]⟩)
      (by decide)⟩
